import Mathlib

/-!
# Op-metrics database utilities

A shallow embedding of `tensorflow/core/profiler/utils/op_metrics_db_utils.cc`
and a verification of its find-or-create builder, the fold of HLO-op metrics
into TF-op metrics, the idle-time functions and the derivation of a TF-op
database from an HLO-op database.

Conventions of the embedding:

* `uint64` values are natural numbers; additions and subtractions of the
  source are reduced modulo `2 ^ 64` explicitly.
* A pointer to a record of `metrics_db` is the position of that record in the
  list (a `RepeatedPtrField` never moves or frees its elements while it is
  appended to, so a position identifies the pointee for the life of the
  database).
* The builder's `OpMetricsDb* db_` is the database it designates, carried in
  the builder state: an operation of the builder returns the new builder.
* `DCHECK`s are active in debug builds only; the functions that contain one
  take the build mode as a Boolean, and a failed `DCHECK` is the result `none`.
* `double` values are rationals (used by `IdleTimeRatio` only).
-/

namespace tensorflow.profiler

/-! ## Data model -/

/-- The modulus of `uint64` arithmetic. -/
def UINT64_MOD : Nat := 2 ^ 64

/-- Sum of two `uint64` values, as C++ computes it. -/
def add64 (a b : Nat) : Nat := (a + b) % UINT64_MOD

/-- Difference of two `uint64` values, as C++ computes it (wraps around). -/
def sub64 (a b : Nat) : Nat := (a + (UINT64_MOD - b % UINT64_MOD)) % UINT64_MOD

/-- Modelled from the spec: the record schema `OpMetrics` of
`op_metrics.pb.h`, with the fields the spec's data model lists
(`occurrences` is an unsigned integer, the other counters are `uint64`). -/
structure OpMetrics where
  hlo_module_id : Nat
  name : String
  category : String
  provenance : String
  occurrences : Nat
  time_ps : Nat
  self_time_ps : Nat
  flops : Nat
  bytes_accessed : Nat
deriving DecidableEq, Repr

/-- The record `add_metrics_db()` creates: every field has its default value. -/
def OpMetrics.empty : OpMetrics :=
  { hlo_module_id := 0, name := "", category := "", provenance := "",
    occurrences := 0, time_ps := 0, self_time_ps := 0, flops := 0,
    bytes_accessed := 0 }

/-- Modelled from the spec: the message `OpMetricsDb` of `op_metrics.pb.h`,
an ordered collection of records and two scalar totals. -/
structure OpMetricsDb where
  metrics_db : List OpMetrics
  total_time_ps : Nat
  total_op_time_ps : Nat
deriving DecidableEq, Repr

/-- A default-constructed `OpMetricsDb`. -/
def OpMetricsDb.empty : OpMetricsDb :=
  { metrics_db := [], total_time_ps := 0, total_op_time_ps := 0 }

/-- The call `db->add_metrics_db()`: appends a default record; the pointer it
returns is the position of the new record, the previous length. -/
def OpMetricsDb.add_metrics_db (db : OpMetricsDb) : OpMetricsDb × Nat :=
  ({ db with metrics_db := db.metrics_db ++ [OpMetrics.empty] }, db.metrics_db.length)

/-- A write through a record pointer: the record at position `p` becomes
`f` of itself. -/
def OpMetricsDb.mutate (db : OpMetricsDb) (p : Nat) (f : OpMetrics → OpMetrics) :
    OpMetricsDb :=
  match db.metrics_db[p]? with
  | some m => { db with metrics_db := db.metrics_db.set p (f m) }
  | none => db

/-! ## The lookup index -/

/-- Lookup in a finite map kept as an association list. -/
def mapFind {κ ν : Type} [DecidableEq κ] : List (κ × ν) → κ → Option ν
  | [], _ => none
  | (k', v) :: rest, k => if k' = k then some v else mapFind rest k

/-- The assignment `m[k] = v` on a finite map kept as an association list. -/
def mapInsert {κ ν : Type} [DecidableEq κ] (m : List (κ × ν)) (k : κ) (v : ν) :
    List (κ × ν) :=
  (k, v) :: m.filter (fun e => decide (e.1 ≠ k))

/-- Modelled from the spec: the member `op_metrics_map_` declared in
`op_metrics_db_utils.h`, a map from module id to a map from name to record
pointer. -/
abbrev OpMetricsMap : Type := List (Nat × List (String × Nat))

/-- The value of `op_metrics_map_[hlo_module_id][name]`, `none` when the entry
is missing (the source then sees a null pointer). -/
def OpMetricsMap.lookup (m : OpMetricsMap) (hlo_module_id : Nat) (name : String) :
    Option Nat :=
  match mapFind m hlo_module_id with
  | some inner => mapFind inner name
  | none => none

/-- The assignment `op_metrics_map_[hlo_module_id][name] = p`. -/
def OpMetricsMap.assign (m : OpMetricsMap) (hlo_module_id : Nat) (name : String)
    (p : Nat) : OpMetricsMap :=
  mapInsert m hlo_module_id (mapInsert ((mapFind m hlo_module_id).getD []) name p)

/-! ## OpMetricsDbBuilder -/

/-- The state of an `OpMetricsDbBuilder`: the database `db_` points to, and
the index `op_metrics_map_`. -/
structure OpMetricsDbBuilder where
  db_ : OpMetricsDb
  op_metrics_map_ : OpMetricsMap
deriving DecidableEq, Repr

/-- The member initialisation of the constructor: `db_(db)` and an empty
index. -/
def OpMetricsDbBuilder.attach (db : OpMetricsDb) : OpMetricsDbBuilder :=
  { db_ := db, op_metrics_map_ := [] }

/-- The constructor `OpMetricsDbBuilder::OpMetricsDbBuilder(OpMetricsDb* db)`
on a non-null pointer. With `dchecks` (a debug build)
`DCHECK_EQ(db_->metrics_db_size(), 0)` is fatal on a database that has
records. -/
def OpMetricsDbBuilder.construct (dchecks : Bool) (db : OpMetricsDb) :
    Option OpMetricsDbBuilder :=
  if dchecks && db.metrics_db.length != 0 then none
  else some (OpMetricsDbBuilder.attach db)

/-- The constructor `OpMetricsDbBuilder::OpMetricsDbBuilder(OpMetricsDb* db)`
on a pointer that may be null (`none`). The result `none` is a fatal `DCHECK`
failure; otherwise the result holds the members after construction, the
pointer `db_` and the empty index. With `dchecks`, `DCHECK_NE(db_, nullptr)`
is fatal on a null pointer and `DCHECK_EQ(db_->metrics_db_size(), 0)` on a
database that has records; without `dchecks` neither condition is
evaluated. -/
def OpMetricsDbBuilder.constructAt (dchecks : Bool) (db : Option OpMetricsDb) :
    Option (Option OpMetricsDb × OpMetricsMap) :=
  match db with
  | none => if dchecks then none else some (none, [])
  | some d =>
    match OpMetricsDbBuilder.construct dchecks d with
    | none => none
    | some b => some (some b.db_, b.op_metrics_map_)

/-- The method `OpMetricsDbBuilder::LookupOrInsertNewOpMetrics`: returns the
builder after the call and the record pointer returned. -/
def OpMetricsDbBuilder.LookupOrInsertNewOpMetrics (b : OpMetricsDbBuilder)
    (hlo_module_id : Nat) (name : String) : OpMetricsDbBuilder × Nat :=
  match b.op_metrics_map_.lookup hlo_module_id name with
  | some op_metrics => (b, op_metrics)
  | none =>
    let (db1, op_metrics) := b.db_.add_metrics_db
    let db2 := db1.mutate op_metrics (fun m => { m with hlo_module_id := hlo_module_id })
    let db3 := db2.mutate op_metrics (fun m => { m with name := name })
    ({ db_ := db3,
       op_metrics_map_ := b.op_metrics_map_.assign hlo_module_id name op_metrics },
     op_metrics)

/-- The method `DeviceTfOpMetricsDbBuilder::UpdateTfOpMetricsWithHloOpMetrics`. -/
def OpMetricsDbBuilder.UpdateTfOpMetricsWithHloOpMetrics (b : OpMetricsDbBuilder)
    (tf_op_name tf_op_type : String) (hlo_op_metrics : OpMetrics) : OpMetricsDbBuilder :=
  let (b1, tf_op_metrics) := b.LookupOrInsertNewOpMetrics 0 tf_op_name
  let db1 := b1.db_.mutate tf_op_metrics
    (fun m => if m.category = "" then { m with category := tf_op_type } else m)
  let db2 := db1.mutate tf_op_metrics
    (fun m => { m with occurrences := max m.occurrences hlo_op_metrics.occurrences })
  let db3 := db2.mutate tf_op_metrics
    (fun m => { m with time_ps := add64 m.time_ps hlo_op_metrics.time_ps })
  let db4 := db3.mutate tf_op_metrics
    (fun m => { m with self_time_ps := add64 m.self_time_ps hlo_op_metrics.self_time_ps })
  let db5 := db4.mutate tf_op_metrics
    (fun m => { m with flops := add64 m.flops hlo_op_metrics.flops })
  let db6 := db5.mutate tf_op_metrics
    (fun m => { m with bytes_accessed := add64 m.bytes_accessed hlo_op_metrics.bytes_accessed })
  { b1 with db_ := db6 }

/-! ## Idle time -/

/-- Modelled from the spec: `SafeDivide` of `math_utils.h`, which returns 0
when the divisor is 0 and the quotient otherwise. -/
def SafeDivide (dividend divisor : ℚ) : ℚ :=
  if divisor = 0 then 0 else dividend / divisor

/-- The function `IdleTimeRatio`, over the division helper it is given. -/
def IdleTimeRatio (safeDivide : ℚ → ℚ → ℚ) (metrics_db : OpMetricsDb) : ℚ :=
  1 - safeDivide (metrics_db.total_op_time_ps : ℚ) (metrics_db.total_time_ps : ℚ)

/-- The function `IdleTimePs`: an unsigned 64-bit subtraction. -/
def IdleTimePs (metrics_db : OpMetricsDb) : Nat :=
  sub64 metrics_db.total_time_ps metrics_db.total_op_time_ps

/-- The function `AddIdleOp`. -/
def AddIdleOp (db : OpMetricsDb) : OpMetricsDb :=
  let idle_time_ps := IdleTimePs db
  let (db1, metrics) := db.add_metrics_db
  let db2 := db1.mutate metrics (fun m => { m with name := "IDLE" })
  let db3 := db2.mutate metrics (fun m => { m with category := "IDLE" })
  let db4 := db3.mutate metrics (fun m => { m with occurrences := 1 })
  let db5 := db4.mutate metrics (fun m => { m with time_ps := idle_time_ps })
  db5.mutate metrics (fun m => { m with self_time_ps := idle_time_ps })

/-! ## Derivation of the TF-op database -/

/-- Modelled from the spec: the result `TfOp` of the provenance decoder of
`tf_op_utils.h`, an operation name and an operation type. -/
structure TfOp where
  name : String
  type : String
deriving DecidableEq, Repr

/-- The loop of `CreateTfMetricsDbFromHloMetricsDb` over the records of the
HLO-op database, from the builder state `builder`. The decoder
`ParseTfOpFullname` of `tf_op_utils.h` is a parameter. With `dchecks`,
`DCHECK_EQ(hlo_op_metrics.name(), "IDLE")` is fatal. -/
def CreateTfMetricsDbFromHloMetricsDb.loop (dchecks : Bool)
    (ParseTfOpFullname : String → TfOp) :
    List OpMetrics → OpMetricsDbBuilder → Option OpMetricsDbBuilder
  | [], builder => some builder
  | hlo_op_metrics :: rest, builder =>
    if hlo_op_metrics.provenance ≠ "" then
      let tf_op := ParseTfOpFullname hlo_op_metrics.provenance
      CreateTfMetricsDbFromHloMetricsDb.loop dchecks ParseTfOpFullname rest
        (builder.UpdateTfOpMetricsWithHloOpMetrics tf_op.name tf_op.type hlo_op_metrics)
    else if dchecks && decide (hlo_op_metrics.name ≠ "IDLE") then none
    else
      CreateTfMetricsDbFromHloMetricsDb.loop dchecks ParseTfOpFullname rest
        (builder.UpdateTfOpMetricsWithHloOpMetrics "IDLE" "IDLE" hlo_op_metrics)

/-- The function `CreateTfMetricsDbFromHloMetricsDb`; `none` is a fatal
`DCHECK` failure. -/
def CreateTfMetricsDbFromHloMetricsDb (dchecks : Bool)
    (ParseTfOpFullname : String → TfOp) (hlo_metrics_db : OpMetricsDb) :
    Option OpMetricsDb :=
  let tf_op_metrics_db := OpMetricsDb.empty
  match OpMetricsDbBuilder.construct dchecks tf_op_metrics_db with
  | none => none
  | some builder =>
    match CreateTfMetricsDbFromHloMetricsDb.loop dchecks ParseTfOpFullname
        hlo_metrics_db.metrics_db builder with
    | none => none
    | some builder1 =>
      let tf_op_metrics_db1 := builder1.db_
      let tf_op_metrics_db2 :=
        { tf_op_metrics_db1 with total_op_time_ps := hlo_metrics_db.total_op_time_ps }
      some { tf_op_metrics_db2 with total_time_ps := hlo_metrics_db.total_time_ps }

/-! ## Auxiliary definitions of the specification -/

/-- The record a call of `LookupOrInsertNewOpMetrics` creates on a miss. -/
def OpMetrics.fresh (hlo_module_id : Nat) (name : String) : OpMetrics :=
  { hlo_module_id := hlo_module_id, name := name, category := "", provenance := "",
    occurrences := 0, time_ps := 0, self_time_ps := 0, flops := 0, bytes_accessed := 0 }

/-- The record after `UpdateTfOpMetricsWithHloOpMetrics` has written to `m`. -/
def OpMetrics.folded (m : OpMetrics) (tf_op_type : String) (hlo_op_metrics : OpMetrics) :
    OpMetrics :=
  { hlo_module_id := m.hlo_module_id, name := m.name,
    category := if m.category = "" then tf_op_type else m.category,
    provenance := m.provenance,
    occurrences := max m.occurrences hlo_op_metrics.occurrences,
    time_ps := add64 m.time_ps hlo_op_metrics.time_ps,
    self_time_ps := add64 m.self_time_ps hlo_op_metrics.self_time_ps,
    flops := add64 m.flops hlo_op_metrics.flops,
    bytes_accessed := add64 m.bytes_accessed hlo_op_metrics.bytes_accessed }

/-- The record the index designates for a key, if any. -/
def OpMetricsDbBuilder.find (b : OpMetricsDbBuilder) (hlo_module_id : Nat)
    (name : String) : Option OpMetrics :=
  match b.op_metrics_map_.lookup hlo_module_id name with
  | some p => b.db_.metrics_db[p]?
  | none => none

/-- The class invariant of a builder: every index entry designates a record of
the database that carries the entry's key, and every record of the database
is designated by the index entry of its key. -/
def OpMetricsDbBuilder.WF (b : OpMetricsDbBuilder) : Prop :=
  (∀ i n p, b.op_metrics_map_.lookup i n = some p →
    ∃ m, b.db_.metrics_db[p]? = some m ∧ m.hlo_module_id = i ∧ m.name = n) ∧
  (∀ p m, b.db_.metrics_db[p]? = some m →
    b.op_metrics_map_.lookup m.hlo_module_id m.name = some p)

/-- A sequence of calls of `UpdateTfOpMetricsWithHloOpMetrics` with the same
`tf_op_name`: one call for each pair (`tf_op_type`, `hlo_op_metrics`) of the
list, in order. -/
def OpMetricsDbBuilder.foldAll (b : OpMetricsDbBuilder) (tf_op_name : String)
    (calls : List (String × OpMetrics)) : OpMetricsDbBuilder :=
  calls.foldl (fun b1 c => b1.UpdateTfOpMetricsWithHloOpMetrics tf_op_name c.1 c.2) b

/-- The writes of a sequence of folds, applied to one record. -/
def OpMetrics.foldedAll (m : OpMetrics) : List (String × OpMetrics) → OpMetrics
  | [] => m
  | c :: rest => (m.folded c.1 c.2).foldedAll rest

/-- The first non-empty string of a list, the empty string if there is none. -/
def firstNonEmpty : List String → String
  | [] => ""
  | c :: rest => if c = "" then firstNonEmpty rest else c

/-- A sequence of calls of `LookupOrInsertNewOpMetrics`, one for each key of
the list in order: the builder after the last call and the pointers the
calls returned. -/
def OpMetricsDbBuilder.lookupAll (b : OpMetricsDbBuilder) :
    List (Nat × String) → OpMetricsDbBuilder × List Nat
  | [] => (b, [])
  | k :: rest =>
    ((b.LookupOrInsertNewOpMetrics k.1 k.2).1.lookupAll rest |>.1,
     (b.LookupOrInsertNewOpMetrics k.1 k.2).2 ::
       ((b.LookupOrInsertNewOpMetrics k.1 k.2).1.lookupAll rest |>.2))

/-- The identity of a record: its module id and its name. -/
def OpMetrics.key (m : OpMetrics) : Nat × String := (m.hlo_module_id, m.name)

/-- The target of a record of the HLO-op database in
`CreateTfMetricsDbFromHloMetricsDb`: the decoded name and type of its
provenance, or `("IDLE", "IDLE")` when the provenance is empty. -/
def tfOpTarget (ParseTfOpFullname : String → TfOp) (hlo_op_metrics : OpMetrics) :
    String × String :=
  if hlo_op_metrics.provenance ≠ "" then
    ((ParseTfOpFullname hlo_op_metrics.provenance).name,
     (ParseTfOpFullname hlo_op_metrics.provenance).type)
  else ("IDLE", "IDLE")

/-- One iteration of the loop of `CreateTfMetricsDbFromHloMetricsDb` when no
`DCHECK` fails. -/
def foldStep (ParseTfOpFullname : String → TfOp) (builder : OpMetricsDbBuilder)
    (hlo_op_metrics : OpMetrics) : OpMetricsDbBuilder :=
  builder.UpdateTfOpMetricsWithHloOpMetrics
    (tfOpTarget ParseTfOpFullname hlo_op_metrics).1
    (tfOpTarget ParseTfOpFullname hlo_op_metrics).2 hlo_op_metrics

/-- A record on which `DCHECK_EQ(hlo_op_metrics.name(), "IDLE")` fails. -/
def failsIdleCheck (hlo_op_metrics : OpMetrics) : Bool :=
  decide (hlo_op_metrics.provenance = "") && decide (hlo_op_metrics.name ≠ "IDLE")

/-- A list without its repeated elements: of every element the first
occurrence is kept, so the elements come in order of first appearance. -/
def dedupFirst {α : Type} [DecidableEq α] : List α → List α
  | [] => []
  | a :: l => a :: (dedupFirst l).filter (fun x => decide (x ≠ a))

/-- The target names of the records of an HLO-op database, in order. -/
def targetNames (ParseTfOpFullname : String → TfOp) (l : List OpMetrics) : List String :=
  l.map (fun h => (tfOpTarget ParseTfOpFullname h).1)

/-- The records of an HLO-op database whose target name is `n`, in order. -/
def tfGroup (ParseTfOpFullname : String → TfOp) (n : String) (l : List OpMetrics) :
    List OpMetrics :=
  l.filter (fun h => decide ((tfOpTarget ParseTfOpFullname h).1 = n))

/-- The aggregate of the records of an HLO-op database whose target name is
`n`: a new record of key `(0, n)` into which they are folded in order, each
with its target type. -/
def derivedRecord (ParseTfOpFullname : String → TfOp) (l : List OpMetrics) (n : String) :
    OpMetrics :=
  (OpMetrics.fresh 0 n).foldedAll
    ((tfGroup ParseTfOpFullname n l).map (fun h => ((tfOpTarget ParseTfOpFullname h).2, h)))

/-- A call of one of the two methods of a builder. -/
inductive BuilderCall where
  | lookupOrInsert (hlo_module_id : Nat) (name : String)
  | update (tf_op_name tf_op_type : String) (hlo_op_metrics : OpMetrics)

/-- The builder after a call. -/
def OpMetricsDbBuilder.call (b : OpMetricsDbBuilder) : BuilderCall → OpMetricsDbBuilder
  | BuilderCall.lookupOrInsert i n => (b.LookupOrInsertNewOpMetrics i n).1
  | BuilderCall.update n t h => b.UpdateTfOpMetricsWithHloOpMetrics n t h

/-- The builder after a sequence of calls, in order. -/
def OpMetricsDbBuilder.run (b : OpMetricsDbBuilder) (calls : List BuilderCall) :
    OpMetricsDbBuilder :=
  calls.foldl OpMetricsDbBuilder.call b

/-! ## Lists and finite maps -/

theorem getElem?_append_singleton_length {α : Type} (l : List α) (x : α) :
    (l ++ [x])[l.length]? = some x := by
  simp

theorem set_append_singleton_length {α : Type} (l : List α) (x y : α) :
    (l ++ [x]).set l.length y = l ++ [y] := by
  induction l with
  | nil => rfl
  | cons a t ih => simp [List.set, ih]

theorem mapFind_filter_ne {κ ν : Type} [DecidableEq κ] (m : List (κ × ν)) (k k' : κ)
    (h : k ≠ k') : mapFind (m.filter (fun e => decide (e.1 ≠ k))) k' = mapFind m k' := by
  induction m with
  | nil => rfl
  | cons e t ih =>
    obtain ⟨a, v⟩ := e
    by_cases hak : a = k
    · have hd : decide ((a, v).1 ≠ k) = false := by simp [hak]
      have hak' : ¬ a = k' := by rw [hak]; exact h
      rw [List.filter_cons_of_neg (by simp [hd]), ih]
      simp [mapFind, hak']
    · have hd : decide ((a, v).1 ≠ k) = true := by simp [hak]
      rw [List.filter_cons_of_pos (by simp [hd])]
      simp only [mapFind, ih]

theorem mapFind_mapInsert {κ ν : Type} [DecidableEq κ] (m : List (κ × ν)) (k k' : κ)
    (v : ν) : mapFind (mapInsert m k v) k' = if k = k' then some v else mapFind m k' := by
  by_cases h : k = k'
  · simp [mapInsert, mapFind, h]
  · simp only [mapInsert, mapFind, h, if_false]
    exact mapFind_filter_ne m k k' h

theorem OpMetricsMap.lookup_assign (m : OpMetricsMap) (i i' : Nat) (n n' : String)
    (p : Nat) :
    (m.assign i n p).lookup i' n' =
      if i = i' ∧ n = n' then some p else m.lookup i' n' := by
  unfold OpMetricsMap.assign OpMetricsMap.lookup
  rw [mapFind_mapInsert]
  by_cases hi : i = i'
  · subst hi
    simp only [if_true, mapFind_mapInsert, true_and]
    by_cases hn : n = n'
    · simp [hn]
    · simp only [hn, if_false]
      cases mapFind m i <;> simp [mapFind]
  · simp [hi]

theorem OpMetricsMap.lookup_nil (i : Nat) (n : String) :
    OpMetricsMap.lookup [] i n = none := rfl

/-! ## Writes through a record pointer -/

theorem OpMetricsDb.mutate_mutate (db : OpMetricsDb) (p : Nat)
    (f g : OpMetrics → OpMetrics) :
    (db.mutate p f).mutate p g = db.mutate p (fun m => g (f m)) := by
  unfold OpMetricsDb.mutate
  cases h : db.metrics_db[p]? with
  | none => simp [h]
  | some m =>
    have hp : p < db.metrics_db.length := (List.getElem?_eq_some_iff.mp h).1
    simp [List.getElem?_set, hp]

theorem OpMetricsDb.mutate_of_get (db : OpMetricsDb) (p : Nat) (f : OpMetrics → OpMetrics)
    (m : OpMetrics) (h : db.metrics_db[p]? = some m) :
    db.mutate p f = { db with metrics_db := db.metrics_db.set p (f m) } := by
  simp [OpMetricsDb.mutate, h]

theorem OpMetricsDb.mutate_total_time_ps (db : OpMetricsDb) (p : Nat)
    (f : OpMetrics → OpMetrics) : (db.mutate p f).total_time_ps = db.total_time_ps := by
  unfold OpMetricsDb.mutate
  cases db.metrics_db[p]? <;> rfl

theorem OpMetricsDb.mutate_total_op_time_ps (db : OpMetricsDb) (p : Nat)
    (f : OpMetrics → OpMetrics) :
    (db.mutate p f).total_op_time_ps = db.total_op_time_ps := by
  unfold OpMetricsDb.mutate
  cases db.metrics_db[p]? <;> rfl

theorem OpMetricsDb.mutate_length (db : OpMetricsDb) (p : Nat)
    (f : OpMetrics → OpMetrics) :
    (db.mutate p f).metrics_db.length = db.metrics_db.length := by
  unfold OpMetricsDb.mutate
  cases db.metrics_db[p]? <;> simp

/-- What `add_metrics_db` followed by writes to the new record amounts to:
the record `f OpMetrics.empty` is appended. -/
theorem OpMetricsDb.add_then_mutate (db : OpMetricsDb) (f : OpMetrics → OpMetrics) :
    db.add_metrics_db.1.mutate db.add_metrics_db.2 f =
      { db with metrics_db := db.metrics_db ++ [f OpMetrics.empty] } := by
  simp [OpMetricsDb.add_metrics_db, OpMetricsDb.mutate, set_append_singleton_length]

/-! ## LookupOrInsertNewOpMetrics and the fold, in closed form -/

theorem OpMetricsDbBuilder.lookupOrInsert_hit (b : OpMetricsDbBuilder) (i : Nat)
    (n : String) (p : Nat) (h : b.op_metrics_map_.lookup i n = some p) :
    b.LookupOrInsertNewOpMetrics i n = (b, p) := by
  simp [OpMetricsDbBuilder.LookupOrInsertNewOpMetrics, h]

theorem OpMetricsDbBuilder.lookupOrInsert_miss (b : OpMetricsDbBuilder) (i : Nat)
    (n : String) (h : b.op_metrics_map_.lookup i n = none) :
    b.LookupOrInsertNewOpMetrics i n =
      ({ db_ := { b.db_ with metrics_db := b.db_.metrics_db ++ [OpMetrics.fresh i n] },
         op_metrics_map_ := b.op_metrics_map_.assign i n b.db_.metrics_db.length },
       b.db_.metrics_db.length) := by
  simp [OpMetricsDbBuilder.LookupOrInsertNewOpMetrics, h, OpMetricsDb.add_metrics_db,
    OpMetricsDb.mutate, set_append_singleton_length, OpMetrics.fresh, OpMetrics.empty]

theorem OpMetricsDbBuilder.update_eq (b : OpMetricsDbBuilder) (n t : String)
    (hlo : OpMetrics) :
    b.UpdateTfOpMetricsWithHloOpMetrics n t hlo =
      { db_ := (b.LookupOrInsertNewOpMetrics 0 n).1.db_.mutate
          (b.LookupOrInsertNewOpMetrics 0 n).2 (fun m => m.folded t hlo),
        op_metrics_map_ := (b.LookupOrInsertNewOpMetrics 0 n).1.op_metrics_map_ } := by
  unfold OpMetricsDbBuilder.UpdateTfOpMetricsWithHloOpMetrics
  simp only [OpMetricsDb.mutate_mutate]
  congr 2
  funext m
  by_cases hc : m.category = "" <;> simp [OpMetrics.folded, hc]

theorem OpMetricsDbBuilder.WF_attach (db : OpMetricsDb) (h : db.metrics_db = []) :
    (OpMetricsDbBuilder.attach db).WF := by
  constructor
  · intro i n p hp
    simp [OpMetricsDbBuilder.attach, OpMetricsMap.lookup_nil] at hp
  · intro p m hm
    simp [OpMetricsDbBuilder.attach, h] at hm

theorem OpMetricsDbBuilder.WF_lookupOrInsert (b : OpMetricsDbBuilder) (i : Nat)
    (n : String) (hb : b.WF) : (b.LookupOrInsertNewOpMetrics i n).1.WF := by
  cases h : b.op_metrics_map_.lookup i n with
  | some p => rw [b.lookupOrInsert_hit i n p h]; exact hb
  | none =>
    rw [b.lookupOrInsert_miss i n h]
    obtain ⟨h1, h2⟩ := hb
    constructor
    · intro i' n' p' hp'
      simp only [OpMetricsMap.lookup_assign] at hp'
      by_cases hk : i = i' ∧ n = n'
      · simp only [hk, and_self, if_true, Option.some.injEq] at hp'
        subst hp'
        exact ⟨OpMetrics.fresh i n, by simp, hk.1, hk.2⟩
      · simp only [hk, if_false] at hp'
        obtain ⟨m, hm, hmi, hmn⟩ := h1 i' n' p' hp'
        have hlt : p' < b.db_.metrics_db.length := (List.getElem?_eq_some_iff.mp hm).1
        exact ⟨m, by simp [List.getElem?_append_left hlt, hm], hmi, hmn⟩
    · intro p m hm
      simp only [OpMetricsMap.lookup_assign]
      by_cases hlt : p < b.db_.metrics_db.length
      · simp only [List.getElem?_append_left hlt] at hm
        have hl := h2 p m hm
        have hk : ¬ (i = m.hlo_module_id ∧ n = m.name) := by
          rintro ⟨rfl, rfl⟩
          rw [h] at hl
          cases hl
        simp only [hk, if_false]
        exact hl
      · have hlen := (List.getElem?_eq_some_iff.mp hm).1
        simp only [List.length_append, List.length_singleton] at hlen
        have hp : p = b.db_.metrics_db.length := by omega
        subst hp
        simp only [getElem?_append_singleton_length, Option.some.injEq] at hm
        subst hm
        simp [OpMetrics.fresh]

/-- After the call the index designates the returned pointer for the key. -/
theorem OpMetricsDbBuilder.lookup_lookupOrInsert (b : OpMetricsDbBuilder) (i : Nat)
    (n : String) :
    (b.LookupOrInsertNewOpMetrics i n).1.op_metrics_map_.lookup i n =
      some (b.LookupOrInsertNewOpMetrics i n).2 := by
  cases h : b.op_metrics_map_.lookup i n with
  | some p => rw [b.lookupOrInsert_hit i n p h]; exact h
  | none =>
    rw [b.lookupOrInsert_miss i n h]
    simp [OpMetricsMap.lookup_assign]

/-- Index entries are never removed or redirected by a call. -/
theorem OpMetricsDbBuilder.lookup_mono (b : OpMetricsDbBuilder) (i i' : Nat)
    (n n' : String) (p : Nat) (hp : b.op_metrics_map_.lookup i' n' = some p) :
    (b.LookupOrInsertNewOpMetrics i n).1.op_metrics_map_.lookup i' n' = some p := by
  cases h : b.op_metrics_map_.lookup i n with
  | some q => rw [b.lookupOrInsert_hit i n q h]; exact hp
  | none =>
    rw [b.lookupOrInsert_miss i n h]
    simp only [OpMetricsMap.lookup_assign]
    have hk : ¬ (i = i' ∧ n = n') := by
      rintro ⟨rfl, rfl⟩
      rw [h] at hp
      cases hp
    simp only [hk, if_false]
    exact hp

/-- Records are never removed, moved or changed by a call. -/
theorem OpMetricsDbBuilder.get_lookupOrInsert (b : OpMetricsDbBuilder) (i : Nat)
    (n : String) (p : Nat) (m : OpMetrics) (hm : b.db_.metrics_db[p]? = some m) :
    (b.LookupOrInsertNewOpMetrics i n).1.db_.metrics_db[p]? = some m := by
  cases h : b.op_metrics_map_.lookup i n with
  | some q => rw [b.lookupOrInsert_hit i n q h]; exact hm
  | none =>
    rw [b.lookupOrInsert_miss i n h]
    have hlt : p < b.db_.metrics_db.length := (List.getElem?_eq_some_iff.mp hm).1
    simp [List.getElem?_append_left hlt, hm]

/-! ## The fold, on a hit and on a miss -/

theorem OpMetricsDbBuilder.update_hit (b : OpMetricsDbBuilder) (n t : String)
    (hlo : OpMetrics) (p : Nat) (m : OpMetrics)
    (hl : b.op_metrics_map_.lookup 0 n = some p) (hm : b.db_.metrics_db[p]? = some m) :
    b.UpdateTfOpMetricsWithHloOpMetrics n t hlo =
      { db_ := { b.db_ with metrics_db := b.db_.metrics_db.set p (m.folded t hlo) },
        op_metrics_map_ := b.op_metrics_map_ } := by
  rw [b.update_eq, b.lookupOrInsert_hit 0 n p hl]
  simp [OpMetricsDb.mutate, hm]

theorem OpMetricsDbBuilder.update_miss (b : OpMetricsDbBuilder) (n t : String)
    (hlo : OpMetrics) (hl : b.op_metrics_map_.lookup 0 n = none) :
    b.UpdateTfOpMetricsWithHloOpMetrics n t hlo =
      { db_ := { b.db_ with
          metrics_db := b.db_.metrics_db ++ [(OpMetrics.fresh 0 n).folded t hlo] },
        op_metrics_map_ := b.op_metrics_map_.assign 0 n b.db_.metrics_db.length } := by
  rw [b.update_eq, b.lookupOrInsert_miss 0 n hl]
  simp [OpMetricsDb.mutate, set_append_singleton_length]

/-- A write that keeps the module id and the name of the record keeps the
class invariant. -/
theorem OpMetricsDbBuilder.WF_mutate (b : OpMetricsDbBuilder) (p : Nat)
    (f : OpMetrics → OpMetrics)
    (hf : ∀ m, (f m).hlo_module_id = m.hlo_module_id ∧ (f m).name = m.name)
    (hb : b.WF) :
    OpMetricsDbBuilder.WF
      { db_ := b.db_.mutate p f, op_metrics_map_ := b.op_metrics_map_ } := by
  unfold OpMetricsDb.mutate
  cases hp : b.db_.metrics_db[p]? with
  | none => exact hb
  | some m0 =>
    have hlt : p < b.db_.metrics_db.length := (List.getElem?_eq_some_iff.mp hp).1
    obtain ⟨h1, h2⟩ := hb
    constructor
    · intro i n q hq
      obtain ⟨m, hm, hmi, hmn⟩ := h1 i n q hq
      by_cases hpq : p = q
      · subst hpq
        rw [hp] at hm
        cases hm
        exact ⟨f m0, by simp [List.getElem?_set, hlt], by rw [(hf m0).1, hmi],
          by rw [(hf m0).2, hmn]⟩
      · exact ⟨m, by simp [List.getElem?_set, hpq, hm], hmi, hmn⟩
    · intro q m hm
      by_cases hpq : p = q
      · subst hpq
        simp only [List.getElem?_set, hlt, if_true, Option.some.injEq] at hm
        subst hm
        rw [(hf m0).1, (hf m0).2]
        exact h2 p m0 hp
      · simp only [List.getElem?_set, hpq, if_false] at hm
        exact h2 q m hm

theorem OpMetricsDbBuilder.WF_update (b : OpMetricsDbBuilder) (n t : String)
    (hlo : OpMetrics) (hb : b.WF) : (b.UpdateTfOpMetricsWithHloOpMetrics n t hlo).WF := by
  rw [b.update_eq]
  exact OpMetricsDbBuilder.WF_mutate _ _ _ (fun m => ⟨rfl, rfl⟩)
    (b.WF_lookupOrInsert 0 n hb)

/-- In a well-formed builder a key has an index entry exactly when the index
designates a record for it. -/
theorem OpMetricsDbBuilder.WF.find_eq_none {b : OpMetricsDbBuilder} (hb : b.WF)
    (i : Nat) (n : String) : b.find i n = none ↔ b.op_metrics_map_.lookup i n = none := by
  unfold OpMetricsDbBuilder.find
  cases hl : b.op_metrics_map_.lookup i n with
  | none => simp
  | some p =>
    obtain ⟨m, hm, -⟩ := hb.1 i n p hl
    simp [hm]

/-- In a well-formed builder the record the index designates for a key
carries that key. -/
theorem OpMetricsDbBuilder.WF.find_key {b : OpMetricsDbBuilder} (hb : b.WF)
    (i : Nat) (n : String) (m : OpMetrics) (h : b.find i n = some m) :
    m.hlo_module_id = i ∧ m.name = n := by
  unfold OpMetricsDbBuilder.find at h
  cases hl : b.op_metrics_map_.lookup i n with
  | none => rw [hl] at h; cases h
  | some p =>
    obtain ⟨m', hm', hmi, hmn⟩ := hb.1 i n p hl
    simp only [hl, hm', Option.some.injEq] at h
    subst h
    exact ⟨hmi, hmn⟩

/-- The record of the key `(0, n)` after a fold, when there was one before. -/
theorem OpMetricsDbBuilder.find_update_hit (b : OpMetricsDbBuilder) (n t : String)
    (hlo prev : OpMetrics) (h : b.find 0 n = some prev) :
    (b.UpdateTfOpMetricsWithHloOpMetrics n t hlo).find 0 n = some (prev.folded t hlo) := by
  unfold OpMetricsDbBuilder.find at h
  cases hl : b.op_metrics_map_.lookup 0 n with
  | none => rw [hl] at h; cases h
  | some p =>
    rw [hl] at h
    have hlt : p < b.db_.metrics_db.length := (List.getElem?_eq_some_iff.mp h).1
    rw [b.update_hit n t hlo p prev hl h]
    simp [OpMetricsDbBuilder.find, hl, List.getElem?_set, hlt]

/-- The record of the key `(0, n)` after a fold, when the index had no entry
for it. -/
theorem OpMetricsDbBuilder.find_update_miss (b : OpMetricsDbBuilder) (n t : String)
    (hlo : OpMetrics) (h : b.op_metrics_map_.lookup 0 n = none) :
    (b.UpdateTfOpMetricsWithHloOpMetrics n t hlo).find 0 n =
      some ((OpMetrics.fresh 0 n).folded t hlo) := by
  rw [b.update_miss n t hlo h]
  simp [OpMetricsDbBuilder.find, OpMetricsMap.lookup_assign]

/-! ## Sequences of folds under one name -/

theorem OpMetricsDbBuilder.foldAll_nil (b : OpMetricsDbBuilder) (n : String) :
    b.foldAll n [] = b := by
  simp only [OpMetricsDbBuilder.foldAll, List.foldl_nil]

theorem OpMetricsDbBuilder.foldAll_cons (b : OpMetricsDbBuilder) (n : String)
    (c : String × OpMetrics) (rest : List (String × OpMetrics)) :
    b.foldAll n (c :: rest) =
      (b.UpdateTfOpMetricsWithHloOpMetrics n c.1 c.2).foldAll n rest := by
  simp only [OpMetricsDbBuilder.foldAll, List.foldl_cons]

theorem OpMetricsDbBuilder.WF_foldAll (n : String) (calls : List (String × OpMetrics)) :
    ∀ b : OpMetricsDbBuilder, b.WF → (b.foldAll n calls).WF := by
  induction calls with
  | nil => intro b hb; exact hb
  | cons c rest ih =>
    intro b hb
    rw [OpMetricsDbBuilder.foldAll_cons]
    exact ih (b.UpdateTfOpMetricsWithHloOpMetrics n c.1 c.2) (b.WF_update n c.1 c.2 hb)

/-- The record of the key `(0, n)` after one fold: the fold applied to the
record of before, or to a new record of that key. -/
theorem OpMetricsDbBuilder.find_update (b : OpMetricsDbBuilder) (hb : b.WF)
    (n t : String) (hlo : OpMetrics) :
    (b.UpdateTfOpMetricsWithHloOpMetrics n t hlo).find 0 n =
      some (((b.find 0 n).getD (OpMetrics.fresh 0 n)).folded t hlo) := by
  cases h : b.find 0 n with
  | some prev => simpa using b.find_update_hit n t hlo prev h
  | none => simpa using b.find_update_miss n t hlo ((hb.find_eq_none 0 n).mp h)

/-- The record of the key `(0, n)` after a non-empty sequence of folds. -/
theorem OpMetricsDbBuilder.find_foldAll (n : String) (rest : List (String × OpMetrics)) :
    ∀ (b : OpMetricsDbBuilder) (c : String × OpMetrics), b.WF →
      (b.foldAll n (c :: rest)).find 0 n =
        some (((b.find 0 n).getD (OpMetrics.fresh 0 n)).foldedAll (c :: rest)) := by
  induction rest with
  | nil =>
    intro b c hb
    rw [OpMetricsDbBuilder.foldAll_cons, OpMetricsDbBuilder.foldAll_nil, OpMetrics.foldedAll,
      OpMetrics.foldedAll]
    exact b.find_update hb n c.1 c.2
  | cons c' rest ih =>
    intro b c hb
    have h1 := b.find_update hb n c.1 c.2
    have h2 := ih (b.UpdateTfOpMetricsWithHloOpMetrics n c.1 c.2) c' (b.WF_update n c.1 c.2 hb)
    rw [h1] at h2
    rw [OpMetricsDbBuilder.foldAll_cons, h2, Option.getD_some]
    rfl

theorem OpMetricsDbBuilder.find_attach (db : OpMetricsDb) (i : Nat) (n : String) :
    (OpMetricsDbBuilder.attach db).find i n = none := rfl

theorem add64_right_comm (z x y : Nat) : add64 (add64 z x) y = add64 (add64 z y) x := by
  unfold add64 UINT64_MOD
  omega

theorem OpMetrics.foldedAll_occurrences (calls : List (String × OpMetrics)) :
    ∀ m : OpMetrics, (m.foldedAll calls).occurrences =
      calls.foldl (fun a c => max a c.2.occurrences) m.occurrences := by
  induction calls with
  | nil => intro m; rfl
  | cons c rest ih => intro m; simp [OpMetrics.foldedAll, ih, OpMetrics.folded]

theorem OpMetrics.foldedAll_time_ps (calls : List (String × OpMetrics)) :
    ∀ m : OpMetrics, (m.foldedAll calls).time_ps =
      calls.foldl (fun a c => add64 a c.2.time_ps) m.time_ps := by
  induction calls with
  | nil => intro m; rfl
  | cons c rest ih => intro m; simp [OpMetrics.foldedAll, ih, OpMetrics.folded]

theorem OpMetrics.foldedAll_self_time_ps (calls : List (String × OpMetrics)) :
    ∀ m : OpMetrics, (m.foldedAll calls).self_time_ps =
      calls.foldl (fun a c => add64 a c.2.self_time_ps) m.self_time_ps := by
  induction calls with
  | nil => intro m; rfl
  | cons c rest ih => intro m; simp [OpMetrics.foldedAll, ih, OpMetrics.folded]

theorem OpMetrics.foldedAll_flops (calls : List (String × OpMetrics)) :
    ∀ m : OpMetrics, (m.foldedAll calls).flops =
      calls.foldl (fun a c => add64 a c.2.flops) m.flops := by
  induction calls with
  | nil => intro m; rfl
  | cons c rest ih => intro m; simp [OpMetrics.foldedAll, ih, OpMetrics.folded]

theorem OpMetrics.foldedAll_bytes_accessed (calls : List (String × OpMetrics)) :
    ∀ m : OpMetrics, (m.foldedAll calls).bytes_accessed =
      calls.foldl (fun a c => add64 a c.2.bytes_accessed) m.bytes_accessed := by
  induction calls with
  | nil => intro m; rfl
  | cons c rest ih => intro m; simp [OpMetrics.foldedAll, ih, OpMetrics.folded]

theorem OpMetrics.foldedAll_category (calls : List (String × OpMetrics)) :
    ∀ m : OpMetrics, (m.foldedAll calls).category =
      firstNonEmpty (m.category :: calls.map Prod.fst) := by
  induction calls with
  | nil => intro m; by_cases h : m.category = "" <;> simp [OpMetrics.foldedAll, firstNonEmpty, h]
  | cons c rest ih =>
    intro m
    rw [OpMetrics.foldedAll, ih]
    by_cases h : m.category = "" <;> simp [OpMetrics.folded, firstNonEmpty, h]

theorem firstNonEmpty_eq_find (l : List String) :
    firstNonEmpty l = (l.find? (fun t => decide (t ≠ ""))).getD "" := by
  induction l with
  | nil => rfl
  | cons c rest ih =>
    by_cases h : c = "" <;> simp [firstNonEmpty, List.find?, h, ih]

/-- The record of the key `(0, n)` after two folds into a builder attached to
an empty database. -/
theorem OpMetricsDbBuilder.find_update_update_attach (db : OpMetricsDb)
    (hdb : db.metrics_db = []) (n t₁ t₂ : String) (h₁ h₂ : OpMetrics) :
    (((OpMetricsDbBuilder.attach db).UpdateTfOpMetricsWithHloOpMetrics n t₁
      h₁).UpdateTfOpMetricsWithHloOpMetrics n t₂ h₂).find 0 n =
      some (((OpMetrics.fresh 0 n).folded t₁ h₁).folded t₂ h₂) := by
  have hb := OpMetricsDbBuilder.WF_attach db hdb
  rw [OpMetricsDbBuilder.find_update _ (OpMetricsDbBuilder.WF_update _ n t₁ h₁ hb),
    OpMetricsDbBuilder.find_update _ hb, OpMetricsDbBuilder.find_attach]
  rfl

/-- The numeric fields of a sequence of folds do not depend on the order of
the sequence. -/
theorem OpMetrics.foldedAll_perm (l₁ l₂ : List (String × OpMetrics)) (h : l₁.Perm l₂)
    (m : OpMetrics) :
    (m.foldedAll l₁).occurrences = (m.foldedAll l₂).occurrences ∧
    (m.foldedAll l₁).time_ps = (m.foldedAll l₂).time_ps ∧
    (m.foldedAll l₁).self_time_ps = (m.foldedAll l₂).self_time_ps ∧
    (m.foldedAll l₁).flops = (m.foldedAll l₂).flops ∧
    (m.foldedAll l₁).bytes_accessed = (m.foldedAll l₂).bytes_accessed := by
  simp only [OpMetrics.foldedAll_occurrences, OpMetrics.foldedAll_time_ps,
    OpMetrics.foldedAll_self_time_ps, OpMetrics.foldedAll_flops,
    OpMetrics.foldedAll_bytes_accessed]
  refine ⟨?_, ?_, ?_, ?_, ?_⟩
  · exact h.foldl_eq' (fun x _ y _ z => by simp only [max_assoc, max_comm x.2.occurrences]) _
  · exact h.foldl_eq' (fun x _ y _ z => add64_right_comm _ _ _) _
  · exact h.foldl_eq' (fun x _ y _ z => add64_right_comm _ _ _) _
  · exact h.foldl_eq' (fun x _ y _ z => add64_right_comm _ _ _) _
  · exact h.foldl_eq' (fun x _ y _ z => add64_right_comm _ _ _) _

/-! ## Sequences of LookupOrInsertNewOpMetrics calls -/

theorem OpMetricsDbBuilder.lookupAll_WF (keys : List (Nat × String)) :
    ∀ b : OpMetricsDbBuilder, b.WF → (b.lookupAll keys).1.WF := by
  induction keys with
  | nil => intro b hb; exact hb
  | cons k rest ih =>
    intro b hb
    exact ih _ (b.WF_lookupOrInsert k.1 k.2 hb)

theorem OpMetricsDbBuilder.lookupAll_length (keys : List (Nat × String)) :
    ∀ b : OpMetricsDbBuilder, (b.lookupAll keys).2.length = keys.length := by
  induction keys with
  | nil => intro b; rfl
  | cons k rest ih =>
    intro b
    simp [OpMetricsDbBuilder.lookupAll, ih]

theorem OpMetricsDbBuilder.lookupAll_mono (keys : List (Nat × String)) :
    ∀ (b : OpMetricsDbBuilder) (i : Nat) (n : String) (p : Nat),
      b.op_metrics_map_.lookup i n = some p →
      (b.lookupAll keys).1.op_metrics_map_.lookup i n = some p := by
  induction keys with
  | nil => intro b i n p hp; exact hp
  | cons k rest ih =>
    intro b i n p hp
    exact ih _ i n p (b.lookup_mono k.1 i k.2 n p hp)

/-- The pointer returned by the call number `a` is the one the final index
holds for that call's key. -/
theorem OpMetricsDbBuilder.lookupAll_lookup (keys : List (Nat × String)) :
    ∀ (b : OpMetricsDbBuilder) (a : Nat) (k : Nat × String) (p : Nat),
      keys[a]? = some k → (b.lookupAll keys).2[a]? = some p →
      (b.lookupAll keys).1.op_metrics_map_.lookup k.1 k.2 = some p := by
  induction keys with
  | nil => intro b a k p hk; simp at hk
  | cons k0 rest ih =>
    intro b a k p hk hp
    cases a with
    | zero =>
      simp only [List.getElem?_cons_zero, Option.some.injEq] at hk
      subst hk
      simp only [OpMetricsDbBuilder.lookupAll, List.getElem?_cons_zero,
        Option.some.injEq] at hp
      subst hp
      exact OpMetricsDbBuilder.lookupAll_mono rest _ k0.1 k0.2 _
        (b.lookup_lookupOrInsert k0.1 k0.2)
    | succ a =>
      simp only [List.getElem?_cons_succ] at hk
      simp only [OpMetricsDbBuilder.lookupAll, List.getElem?_cons_succ] at hp
      exact ih _ a k p hk hp

/-- Every record of the final database was there before or carries one of the
keys presented. -/
theorem OpMetricsDbBuilder.lookupAll_mem (keys : List (Nat × String)) :
    ∀ (b : OpMetricsDbBuilder) (m : OpMetrics),
      m ∈ (b.lookupAll keys).1.db_.metrics_db →
      m ∈ b.db_.metrics_db ∨ m.key ∈ keys := by
  induction keys with
  | nil => intro b m hm; exact Or.inl hm
  | cons k rest ih =>
    intro b m hm
    rcases ih _ m hm with h | h
    · cases hl : b.op_metrics_map_.lookup k.1 k.2 with
      | some q =>
        rw [b.lookupOrInsert_hit k.1 k.2 q hl] at h
        exact Or.inl h
      | none =>
        rw [b.lookupOrInsert_miss k.1 k.2 hl] at h
        simp only [List.mem_append, List.mem_singleton] at h
        rcases h with h | h
        · exact Or.inl h
        · right
          subst h
          simp [OpMetrics.key, OpMetrics.fresh]
    · exact Or.inr (List.mem_cons_of_mem _ h)

/-- In a well-formed builder no two records carry the same key. -/
theorem OpMetricsDbBuilder.WF.nodup_keys {b : OpMetricsDbBuilder} (hb : b.WF) :
    (b.db_.metrics_db.map OpMetrics.key).Nodup := by
  rw [List.nodup_iff_getElem?_ne_getElem?]
  intro i j hij hj heq
  simp only [List.length_map] at hj
  have hi : i < b.db_.metrics_db.length := by omega
  simp only [List.getElem?_map, List.getElem?_eq_getElem hi, List.getElem?_eq_getElem hj,
    Option.map_some', Option.some.injEq, OpMetrics.key, Prod.mk.injEq] at heq
  have h1 := hb.2 i _ (List.getElem?_eq_getElem hi)
  have h2 := hb.2 j _ (List.getElem?_eq_getElem hj)
  rw [heq.1, heq.2, h2] at h1
  simp only [Option.some.injEq] at h1
  omega

/-- The pointer returned by the call number `a` designates, in the final
database, a record that carries that call's key. -/
theorem OpMetricsDbBuilder.lookupAll_get (keys : List (Nat × String))
    (b : OpMetricsDbBuilder) (hb : b.WF) (a : Nat) (k : Nat × String) (p : Nat)
    (hk : keys[a]? = some k) (hp : (b.lookupAll keys).2[a]? = some p) :
    ∃ m, (b.lookupAll keys).1.db_.metrics_db[p]? = some m ∧ m.key = k := by
  obtain ⟨m, hm, h1, h2⟩ :=
    (OpMetricsDbBuilder.lookupAll_WF keys b hb).1 k.1 k.2 p
      (OpMetricsDbBuilder.lookupAll_lookup keys b a k p hk hp)
  exact ⟨m, hm, by simp [OpMetrics.key, h1, h2]⟩

/-- From an empty database, the keys of the final records are the keys
presented, each once. -/
theorem OpMetricsDbBuilder.lookupAll_keys_perm (db : OpMetricsDb)
    (keys : List (Nat × String)) (hdb : db.metrics_db = []) :
    (((OpMetricsDbBuilder.attach db).lookupAll keys).1.db_.metrics_db.map
      OpMetrics.key).Perm keys.dedup := by
  have hwf := OpMetricsDbBuilder.lookupAll_WF keys _ (OpMetricsDbBuilder.WF_attach db hdb)
  rw [List.perm_ext_iff_of_nodup hwf.nodup_keys (List.nodup_dedup keys)]
  intro k
  rw [List.mem_dedup, List.mem_map]
  constructor
  · rintro ⟨m, hm, rfl⟩
    rcases OpMetricsDbBuilder.lookupAll_mem keys _ m hm with h | h
    · simp [OpMetricsDbBuilder.attach, hdb] at h
    · exact h
  · intro hk
    obtain ⟨a, ha⟩ := List.mem_iff_getElem?.mp hk
    have hlt : a < keys.length := (List.getElem?_eq_some_iff.mp ha).1
    have hlt2 : a < ((OpMetricsDbBuilder.attach db).lookupAll keys).2.length := by
      rw [OpMetricsDbBuilder.lookupAll_length]; exact hlt
    obtain ⟨m, hm, hmk⟩ := OpMetricsDbBuilder.lookupAll_get keys _
      (OpMetricsDbBuilder.WF_attach db hdb) a k _ ha (List.getElem?_eq_getElem hlt2)
    exact ⟨m, List.mem_iff_getElem?.mpr ⟨_, hm⟩, hmk⟩

/-! ## The derivation loop -/

theorem foldStep_of_provenance (prs : String → TfOp) (b : OpMetricsDbBuilder)
    (h : OpMetrics) (hp : h.provenance ≠ "") :
    foldStep prs b h =
      b.UpdateTfOpMetricsWithHloOpMetrics (prs h.provenance).name (prs h.provenance).type
        h := by
  unfold foldStep tfOpTarget
  rw [if_pos hp]

theorem foldStep_of_no_provenance (prs : String → TfOp) (b : OpMetricsDbBuilder)
    (h : OpMetrics) (hp : h.provenance = "") :
    foldStep prs b h = b.UpdateTfOpMetricsWithHloOpMetrics "IDLE" "IDLE" h := by
  unfold foldStep tfOpTarget
  rw [if_neg (not_not.mpr hp)]

theorem CreateTfMetricsDbFromHloMetricsDb.loop_nil (dchecks : Bool)
    (prs : String → TfOp) (b : OpMetricsDbBuilder) :
    CreateTfMetricsDbFromHloMetricsDb.loop dchecks prs [] b = some b := by
  rw [CreateTfMetricsDbFromHloMetricsDb.loop]

theorem CreateTfMetricsDbFromHloMetricsDb.loop_cons_ok (dchecks : Bool)
    (prs : String → TfOp) (h : OpMetrics) (rest : List OpMetrics)
    (b : OpMetricsDbBuilder) (hok : (dchecks && failsIdleCheck h) = false) :
    CreateTfMetricsDbFromHloMetricsDb.loop dchecks prs (h :: rest) b =
      CreateTfMetricsDbFromHloMetricsDb.loop dchecks prs rest (foldStep prs b h) := by
  rw [CreateTfMetricsDbFromHloMetricsDb.loop]
  by_cases hp : h.provenance = ""
  · rw [foldStep_of_no_provenance prs b h hp, if_neg (not_not.mpr hp)]
    have hc : (dchecks && decide (h.name ≠ "IDLE")) = false := by
      simpa [failsIdleCheck, hp] using hok
    rw [hc]
    rfl
  · rw [foldStep_of_provenance prs b h hp, if_pos hp]

theorem CreateTfMetricsDbFromHloMetricsDb.loop_cons_fatal (dchecks : Bool)
    (prs : String → TfOp) (h : OpMetrics) (rest : List OpMetrics)
    (b : OpMetricsDbBuilder) (hbad : (dchecks && failsIdleCheck h) = true) :
    CreateTfMetricsDbFromHloMetricsDb.loop dchecks prs (h :: rest) b = none := by
  rw [CreateTfMetricsDbFromHloMetricsDb.loop]
  simp only [failsIdleCheck, Bool.and_eq_true, decide_eq_true_eq] at hbad
  obtain ⟨hd, hp, hn⟩ := hbad
  rw [if_neg (not_not.mpr hp)]
  have hc : (dchecks && decide (h.name ≠ "IDLE")) = true := by
    simp [hd, hn]
  rw [hc]
  rfl

/-- The loop is fatal exactly in a debug build on a list with a record that
fails the check; otherwise it folds every record in order. -/
theorem CreateTfMetricsDbFromHloMetricsDb.loop_eq (dchecks : Bool)
    (prs : String → TfOp) (l : List OpMetrics) :
    ∀ b : OpMetricsDbBuilder,
      CreateTfMetricsDbFromHloMetricsDb.loop dchecks prs l b =
        if dchecks && l.any failsIdleCheck then none
        else some (l.foldl (foldStep prs) b) := by
  induction l with
  | nil =>
    intro b
    rw [CreateTfMetricsDbFromHloMetricsDb.loop_nil]
    simp
  | cons h rest ih =>
    intro b
    cases hbad : (dchecks && failsIdleCheck h) with
    | true =>
      rw [CreateTfMetricsDbFromHloMetricsDb.loop_cons_fatal dchecks prs h rest b hbad]
      simp only [Bool.and_eq_true] at hbad
      simp [hbad.1, hbad.2]
    | false =>
      rw [CreateTfMetricsDbFromHloMetricsDb.loop_cons_ok dchecks prs h rest b hbad, ih,
        List.foldl_cons]
      have hcond : (dchecks && (h :: rest).any failsIdleCheck) =
          (dchecks && rest.any failsIdleCheck) := by
        cases dchecks
        · rfl
        · simp only [Bool.true_and] at hbad
          simp [hbad]
      rw [hcond]

theorem CreateTfMetricsDbFromHloMetricsDb.eq_fold (dchecks : Bool)
    (prs : String → TfOp) (db : OpMetricsDb) :
    CreateTfMetricsDbFromHloMetricsDb dchecks prs db =
      if dchecks && db.metrics_db.any failsIdleCheck then none
      else some
        { metrics_db :=
            (db.metrics_db.foldl (foldStep prs)
              (OpMetricsDbBuilder.attach OpMetricsDb.empty)).db_.metrics_db,
          total_time_ps := db.total_time_ps,
          total_op_time_ps := db.total_op_time_ps } := by
  have hc : OpMetricsDbBuilder.construct dchecks OpMetricsDb.empty =
      some (OpMetricsDbBuilder.attach OpMetricsDb.empty) := by
    cases dchecks <;> rfl
  unfold CreateTfMetricsDbFromHloMetricsDb
  simp only [hc, CreateTfMetricsDbFromHloMetricsDb.loop_eq]
  cases (dchecks && db.metrics_db.any failsIdleCheck) <;> rfl

/-! ## Removal of repeated elements -/

theorem mem_dedupFirst {α : Type} [DecidableEq α] (l : List α) (a : α) :
    a ∈ dedupFirst l ↔ a ∈ l := by
  induction l with
  | nil => simp [dedupFirst]
  | cons b l ih =>
    by_cases hab : a = b
    · simp [dedupFirst, hab]
    · simp [dedupFirst, hab, List.mem_filter, ih]

theorem nodup_dedupFirst {α : Type} [DecidableEq α] (l : List α) : (dedupFirst l).Nodup := by
  induction l with
  | nil => simp [dedupFirst]
  | cons b l ih =>
    rw [dedupFirst, List.nodup_cons]
    exact ⟨by simp [List.mem_filter], ih.filter _⟩

theorem dedupFirst_append_singleton {α : Type} [DecidableEq α] (l : List α) (a : α) :
    dedupFirst (l ++ [a]) = if a ∈ l then dedupFirst l else dedupFirst l ++ [a] := by
  induction l with
  | nil => simp [dedupFirst]
  | cons b l ih =>
    rw [List.cons_append, dedupFirst, ih, dedupFirst]
    by_cases hab : a = b
    · subst hab
      by_cases hal : a ∈ l
      · simp [hal]
      · simp [hal, List.filter_append]
    · by_cases hal : a ∈ l
      · simp [hal, hab]
      · simp [hal, hab, List.filter_append]

/-- The number of elements kept is the number of distinct elements. -/
theorem length_dedupFirst {α : Type} [DecidableEq α] (l : List α) :
    (dedupFirst l).length = l.dedup.length := by
  apply List.Perm.length_eq
  rw [List.perm_ext_iff_of_nodup (nodup_dedupFirst l) (List.nodup_dedup l)]
  intro a
  rw [mem_dedupFirst, List.mem_dedup]

/-! ## The records of the derived database -/

theorem OpMetrics.foldedAll_append (c₁ c₂ : List (String × OpMetrics)) :
    ∀ m : OpMetrics, m.foldedAll (c₁ ++ c₂) = (m.foldedAll c₁).foldedAll c₂ := by
  induction c₁ with
  | nil => intro m; rfl
  | cons c rest ih =>
    intro m
    rw [List.cons_append, OpMetrics.foldedAll, OpMetrics.foldedAll, ih]

theorem OpMetrics.foldedAll_key (calls : List (String × OpMetrics)) :
    ∀ m : OpMetrics, (m.foldedAll calls).hlo_module_id = m.hlo_module_id ∧
      (m.foldedAll calls).name = m.name ∧ (m.foldedAll calls).provenance = m.provenance := by
  induction calls with
  | nil => intro m; exact ⟨rfl, rfl, rfl⟩
  | cons c rest ih =>
    intro m
    rw [OpMetrics.foldedAll]
    exact ih (m.folded c.1 c.2)

theorem derivedRecord_hlo_module_id (prs : String → TfOp) (l : List OpMetrics)
    (n : String) : (derivedRecord prs l n).hlo_module_id = 0 :=
  (OpMetrics.foldedAll_key _ _).1

theorem derivedRecord_name (prs : String → TfOp) (l : List OpMetrics) (n : String) :
    (derivedRecord prs l n).name = n :=
  (OpMetrics.foldedAll_key _ _).2.1

theorem derivedRecord_append_same (prs : String → TfOp) (l : List OpMetrics)
    (h : OpMetrics) :
    derivedRecord prs (l ++ [h]) (tfOpTarget prs h).1 =
      (derivedRecord prs l (tfOpTarget prs h).1).folded (tfOpTarget prs h).2 h := by
  simp [derivedRecord, tfGroup, List.filter_append, OpMetrics.foldedAll_append,
    OpMetrics.foldedAll]

theorem derivedRecord_append_other (prs : String → TfOp) (l : List OpMetrics)
    (h : OpMetrics) (n : String) (hn : (tfOpTarget prs h).1 ≠ n) :
    derivedRecord prs (l ++ [h]) n = derivedRecord prs l n := by
  simp [derivedRecord, tfGroup, List.filter_append, hn]

theorem derivedRecord_of_not_mem (prs : String → TfOp) (l : List OpMetrics) (n : String)
    (hn : n ∉ targetNames prs l) : derivedRecord prs l n = OpMetrics.fresh 0 n := by
  have hnil : tfGroup prs n l = [] := by
    rw [tfGroup, List.filter_eq_nil_iff]
    intro h hh hdec
    apply hn
    rw [targetNames, List.mem_map]
    exact ⟨h, hh, by simpa using hdec⟩
  simp [derivedRecord, hnil, OpMetrics.foldedAll]

/-- On a list without repetition, a map that differs from another at one
element only is that other map with one position overwritten. -/
theorem map_set_of_nodup {α β : Type} (names : List α) (g g' : α → β) (p : Nat) (n : α)
    (hnd : names.Nodup) (hp : names[p]? = some n) (hg : ∀ x, x ≠ n → g' x = g x) :
    (names.map g).set p (g' n) = names.map g' := by
  have hlt : p < names.length := (List.getElem?_eq_some_iff.mp hp).1
  apply List.ext_getElem?
  intro q
  rw [List.getElem?_set]
  by_cases hpq : p = q
  · subst hpq
    simp [hlt, hp, (List.getElem?_eq_some_iff.mp hp).2]
  · simp only [hpq, if_false, List.getElem?_map]
    cases hq : names[q]? with
    | none => rfl
    | some x =>
      have hx : x ≠ n := by
        rintro rfl
        have hqlt : q < names.length := (List.getElem?_eq_some_iff.mp hq).1
        have e1 : names[p] = names[q] := by
          rw [(List.getElem?_eq_some_iff.mp hp).2, (List.getElem?_eq_some_iff.mp hq).2]
        exact hpq ((hnd.getElem_inj_iff).mp e1)
      simp [hg x hx]

theorem WF_foldl_foldStep (prs : String → TfOp) (l : List OpMetrics) :
    ∀ b : OpMetricsDbBuilder, b.WF → (l.foldl (foldStep prs) b).WF := by
  induction l with
  | nil => intro b hb; simpa only [List.foldl_nil] using hb
  | cons h rest ih =>
    intro b hb
    rw [List.foldl_cons]
    apply ih
    unfold foldStep
    exact b.WF_update _ _ h hb

theorem foldl_foldStep_append_singleton (prs : String → TfOp) (l : List OpMetrics)
    (h : OpMetrics) (b : OpMetricsDbBuilder) :
    (l ++ [h]).foldl (foldStep prs) b =
      (l.foldl (foldStep prs) b).UpdateTfOpMetricsWithHloOpMetrics
        (tfOpTarget prs h).1 (tfOpTarget prs h).2 h := by
  rw [List.foldl_append, List.foldl_cons, List.foldl_nil, foldStep]

/-- The records of the builder after the loop of
`CreateTfMetricsDbFromHloMetricsDb` over the list `l`: one record for each
target name, in order of first appearance, the aggregate of the records of
`l` with that target name. -/
theorem derived_records (prs : String → TfOp) (l : List OpMetrics) :
    (l.foldl (foldStep prs) (OpMetricsDbBuilder.attach OpMetricsDb.empty)).db_.metrics_db =
      (dedupFirst (targetNames prs l)).map (derivedRecord prs l) := by
  induction l using List.reverseRecOn with
  | nil =>
    simp only [List.foldl_nil, targetNames, List.map_nil, dedupFirst]
    rfl
  | append_singleton l h ih =>
    have hwf : (l.foldl (foldStep prs) (OpMetricsDbBuilder.attach OpMetricsDb.empty)).WF :=
      WF_foldl_foldStep prs l _ (OpMetricsDbBuilder.WF_attach _ rfl)
    have hnames : targetNames prs (l ++ [h]) =
        targetNames prs l ++ [(tfOpTarget prs h).1] := by
      simp [targetNames]
    rw [foldl_foldStep_append_singleton, hnames, dedupFirst_append_singleton]
    by_cases hmem : (tfOpTarget prs h).1 ∈ targetNames prs l
    · rw [if_pos hmem]
      obtain ⟨p, hp⟩ := List.mem_iff_getElem?.mp
        ((mem_dedupFirst _ _).mpr hmem)
      have hrec : (l.foldl (foldStep prs)
          (OpMetricsDbBuilder.attach OpMetricsDb.empty)).db_.metrics_db[p]? =
          some (derivedRecord prs l (tfOpTarget prs h).1) := by
        rw [ih, List.getElem?_map, hp]
        rfl
      have hl := hwf.2 p _ hrec
      rw [derivedRecord_hlo_module_id, derivedRecord_name] at hl
      rw [OpMetricsDbBuilder.update_hit _ _ _ _ p _ hl hrec]
      simp only []
      rw [ih, ← derivedRecord_append_same]
      exact map_set_of_nodup _ _ _ p _ (nodup_dedupFirst _) hp
        (fun x hx => derivedRecord_append_other prs l h x (Ne.symm hx))
    · rw [if_neg hmem]
      have hl : (l.foldl (foldStep prs)
          (OpMetricsDbBuilder.attach OpMetricsDb.empty)).op_metrics_map_.lookup 0
          (tfOpTarget prs h).1 = none := by
        cases hlk : (l.foldl (foldStep prs)
          (OpMetricsDbBuilder.attach OpMetricsDb.empty)).op_metrics_map_.lookup 0
          (tfOpTarget prs h).1 with
        | none => rfl
        | some p =>
          exfalso
          obtain ⟨m, hm, -, hmn⟩ := hwf.1 0 _ p hlk
          have hmem' : m ∈ (dedupFirst (targetNames prs l)).map (derivedRecord prs l) := by
            rw [← ih]
            exact List.mem_iff_getElem?.mpr ⟨p, hm⟩
          obtain ⟨x, hx, rfl⟩ := List.mem_map.mp hmem'
          rw [derivedRecord_name] at hmn
          rw [mem_dedupFirst, hmn] at hx
          exact hmem hx
      rw [OpMetricsDbBuilder.update_miss _ _ _ _ hl]
      simp only []
      rw [ih, List.map_append, List.map_singleton, derivedRecord_append_same,
        derivedRecord_of_not_mem prs l _ hmem]
      congr 1
      apply List.map_congr_left
      intro x hx
      have hxn : (tfOpTarget prs h).1 ≠ x := by
        rintro rfl
        exact hmem ((mem_dedupFirst _ _).mp hx)
      exact (derivedRecord_append_other prs l h x hxn).symm

/-- The database `CreateTfMetricsDbFromHloMetricsDb` returns, when it returns
one. -/
theorem CreateTfMetricsDbFromHloMetricsDb.eq_derived (dchecks : Bool)
    (prs : String → TfOp) (db : OpMetricsDb) :
    CreateTfMetricsDbFromHloMetricsDb dchecks prs db =
      if dchecks && db.metrics_db.any failsIdleCheck then none
      else some
        { metrics_db :=
            (dedupFirst (targetNames prs db.metrics_db)).map (derivedRecord prs db.metrics_db),
          total_time_ps := db.total_time_ps,
          total_op_time_ps := db.total_op_time_ps } := by
  rw [CreateTfMetricsDbFromHloMetricsDb.eq_fold, derived_records]

theorem CreateTfMetricsDbFromHloMetricsDb.of_eq_some (dchecks : Bool)
    (prs : String → TfOp) (db out : OpMetricsDb)
    (h : CreateTfMetricsDbFromHloMetricsDb dchecks prs db = some out) :
    (dchecks && db.metrics_db.any failsIdleCheck) = false ∧
    out =
      { metrics_db :=
          (dedupFirst (targetNames prs db.metrics_db)).map (derivedRecord prs db.metrics_db),
        total_time_ps := db.total_time_ps,
        total_op_time_ps := db.total_op_time_ps } := by
  rw [CreateTfMetricsDbFromHloMetricsDb.eq_derived] at h
  cases hc : (dchecks && db.metrics_db.any failsIdleCheck) with
  | true => rw [hc] at h; simp at h
  | false =>
    rw [hc] at h
    simp only [Bool.false_eq_true, if_false, Option.some.injEq] at h
    exact ⟨rfl, h.symm⟩

theorem CreateTfMetricsDbFromHloMetricsDb.eq_some_of (dchecks : Bool)
    (prs : String → TfOp) (db : OpMetricsDb)
    (h : (dchecks && db.metrics_db.any failsIdleCheck) = false) :
    CreateTfMetricsDbFromHloMetricsDb dchecks prs db =
      some
        { metrics_db :=
            (dedupFirst (targetNames prs db.metrics_db)).map (derivedRecord prs db.metrics_db),
          total_time_ps := db.total_time_ps,
          total_op_time_ps := db.total_op_time_ps } := by
  rw [CreateTfMetricsDbFromHloMetricsDb.eq_derived, h]
  rfl

/-! ## The fields of an aggregate -/

theorem foldl_add64_eq {γ : Type} (f : γ → Nat) (calls : List γ) :
    ∀ z : Nat, z < 2 ^ 64 →
      calls.foldl (fun a c => add64 a (f c)) z = (z + (calls.map f).sum) % 2 ^ 64 := by
  induction calls with
  | nil =>
    intro z hz
    simp only [List.foldl_nil, List.map_nil, List.sum_nil, Nat.add_zero]
    exact (Nat.mod_eq_of_lt hz).symm
  | cons c rest ih =>
    intro z hz
    have hlt : add64 z (f c) < 2 ^ 64 := by
      unfold add64 UINT64_MOD
      exact Nat.mod_lt _ (by norm_num)
    rw [List.foldl_cons, ih _ hlt, List.map_cons, List.sum_cons]
    unfold add64 UINT64_MOD
    omega

theorem foldl_max_bounds {γ : Type} (f : γ → Nat) (calls : List γ) :
    ∀ z : Nat, z ≤ calls.foldl (fun a c => max a (f c)) z ∧
      (∀ c ∈ calls, f c ≤ calls.foldl (fun a c => max a (f c)) z) ∧
      (calls.foldl (fun a c => max a (f c)) z = z ∨
        ∃ c ∈ calls, f c = calls.foldl (fun a c => max a (f c)) z) := by
  induction calls with
  | nil => intro z; simp
  | cons c rest ih =>
    intro z
    obtain ⟨h1, h2, h3⟩ := ih (max z (f c))
    rw [List.foldl_cons]
    refine ⟨le_trans (le_max_left _ _) h1, ?_, ?_⟩
    · intro c' hc'
      rcases List.mem_cons.mp hc' with rfl | hc'
      · exact le_trans (le_max_right _ _) h1
      · exact h2 c' hc'
    · rcases h3 with h3 | ⟨c', hc', h3⟩
      · rcases le_total z (f c) with hz | hz
        · right
          exact ⟨c, List.mem_cons_self _ _, by rw [h3, max_eq_right hz]⟩
        · left
          rw [h3, max_eq_left hz]
      · right
        exact ⟨c', List.mem_cons_of_mem _ hc', h3⟩

theorem mem_tfGroup (prs : String → TfOp) (n : String) (l : List OpMetrics) (h : OpMetrics) :
    h ∈ tfGroup prs n l ↔ h ∈ l ∧ (tfOpTarget prs h).1 = n := by
  simp [tfGroup, List.mem_filter]

theorem derivedRecord_time_ps (prs : String → TfOp) (l : List OpMetrics) (n : String) :
    (derivedRecord prs l n).time_ps =
      ((tfGroup prs n l).map OpMetrics.time_ps).sum % 2 ^ 64 := by
  rw [derivedRecord, OpMetrics.foldedAll_time_ps,
    foldl_add64_eq (fun c : String × OpMetrics => c.2.time_ps) _ _ (by simp [OpMetrics.fresh]),
    List.map_map]
  simp [OpMetrics.fresh, Function.comp_def]

theorem derivedRecord_self_time_ps (prs : String → TfOp) (l : List OpMetrics) (n : String) :
    (derivedRecord prs l n).self_time_ps =
      ((tfGroup prs n l).map OpMetrics.self_time_ps).sum % 2 ^ 64 := by
  rw [derivedRecord, OpMetrics.foldedAll_self_time_ps,
    foldl_add64_eq (fun c : String × OpMetrics => c.2.self_time_ps) _ _
      (by simp [OpMetrics.fresh]),
    List.map_map]
  simp [OpMetrics.fresh, Function.comp_def]

theorem derivedRecord_flops (prs : String → TfOp) (l : List OpMetrics) (n : String) :
    (derivedRecord prs l n).flops =
      ((tfGroup prs n l).map OpMetrics.flops).sum % 2 ^ 64 := by
  rw [derivedRecord, OpMetrics.foldedAll_flops,
    foldl_add64_eq (fun c : String × OpMetrics => c.2.flops) _ _ (by simp [OpMetrics.fresh]),
    List.map_map]
  simp [OpMetrics.fresh, Function.comp_def]

theorem derivedRecord_bytes_accessed (prs : String → TfOp) (l : List OpMetrics)
    (n : String) :
    (derivedRecord prs l n).bytes_accessed =
      ((tfGroup prs n l).map OpMetrics.bytes_accessed).sum % 2 ^ 64 := by
  rw [derivedRecord, OpMetrics.foldedAll_bytes_accessed,
    foldl_add64_eq (fun c : String × OpMetrics => c.2.bytes_accessed) _ _
      (by simp [OpMetrics.fresh]),
    List.map_map]
  simp [OpMetrics.fresh, Function.comp_def]

/-- The occurrences of an aggregate are an upper bound of the occurrences of
the records of its group, and are attained in the group when it is not
empty. -/
theorem derivedRecord_occurrences (prs : String → TfOp) (l : List OpMetrics) (n : String) :
    (∀ h ∈ tfGroup prs n l, h.occurrences ≤ (derivedRecord prs l n).occurrences) ∧
    (tfGroup prs n l ≠ [] →
      ∃ h ∈ tfGroup prs n l, h.occurrences = (derivedRecord prs l n).occurrences) := by
  rw [derivedRecord, OpMetrics.foldedAll_occurrences]
  obtain ⟨-, h2, h3⟩ := foldl_max_bounds (fun c : String × OpMetrics => c.2.occurrences)
    ((tfGroup prs n l).map (fun h => ((tfOpTarget prs h).2, h))) (OpMetrics.fresh 0 n).occurrences
  constructor
  · intro h hh
    exact h2 ((tfOpTarget prs h).2, h) (List.mem_map.mpr ⟨h, hh, rfl⟩)
  · intro hne
    rcases h3 with h3 | ⟨c, hc, h3⟩
    · obtain ⟨h0, rest, hg⟩ := List.exists_cons_of_ne_nil hne
      have hmem : h0 ∈ tfGroup prs n l := by rw [hg]; exact List.mem_cons_self _ _
      have hle := h2 ((tfOpTarget prs h0).2, h0) (List.mem_map.mpr ⟨h0, hmem, rfl⟩)
      rw [h3] at hle ⊢
      have hz : (OpMetrics.fresh 0 n).occurrences = 0 := rfl
      rw [hz] at hle ⊢
      exact ⟨h0, hmem, Nat.le_zero.mp hle⟩
    · obtain ⟨h, hh, rfl⟩ := List.mem_map.mp hc
      exact ⟨h, hh, h3⟩

/-! ## Sequences of calls of both methods -/

theorem OpMetricsDb.getElem?_mutate (db : OpMetricsDb) (p q : Nat)
    (f : OpMetrics → OpMetrics) :
    (db.mutate p f).metrics_db[q]? =
      if p = q then (db.metrics_db[q]?).map f else db.metrics_db[q]? := by
  unfold OpMetricsDb.mutate
  cases hp : db.metrics_db[p]? with
  | none =>
    by_cases hpq : p = q
    · subst hpq
      simp [hp]
    · simp [hpq]
  | some m =>
    have hlt : p < db.metrics_db.length := (List.getElem?_eq_some_iff.mp hp).1
    by_cases hpq : p = q
    · subst hpq
      simp [List.getElem?_set, hlt, hp]
    · simp [List.getElem?_set, hpq]

/-- A fold keeps every record at its position, with its module id, name and
provenance. -/
theorem OpMetricsDbBuilder.get_update (b : OpMetricsDbBuilder) (n t : String)
    (hlo : OpMetrics) (p : Nat) (m : OpMetrics) (hm : b.db_.metrics_db[p]? = some m) :
    ∃ m', (b.UpdateTfOpMetricsWithHloOpMetrics n t hlo).db_.metrics_db[p]? = some m' ∧
      m'.hlo_module_id = m.hlo_module_id ∧ m'.name = m.name ∧
      m'.provenance = m.provenance := by
  rw [b.update_eq]
  simp only [OpMetricsDb.getElem?_mutate, b.get_lookupOrInsert 0 n p m hm]
  by_cases hpq : (b.LookupOrInsertNewOpMetrics 0 n).2 = p
  · rw [if_pos hpq]
    exact ⟨m.folded t hlo, rfl, rfl, rfl, rfl⟩
  · rw [if_neg hpq]
    exact ⟨m, rfl, rfl, rfl, rfl⟩

theorem OpMetricsDbBuilder.call_lookupOrInsert (b : OpMetricsDbBuilder) (i : Nat)
    (n : String) :
    b.call (BuilderCall.lookupOrInsert i n) = (b.LookupOrInsertNewOpMetrics i n).1 := by
  rw [OpMetricsDbBuilder.call]

theorem OpMetricsDbBuilder.call_update (b : OpMetricsDbBuilder) (n t : String)
    (hlo : OpMetrics) :
    b.call (BuilderCall.update n t hlo) = b.UpdateTfOpMetricsWithHloOpMetrics n t hlo := by
  rw [OpMetricsDbBuilder.call]

theorem OpMetricsDbBuilder.WF_call (b : OpMetricsDbBuilder) (c : BuilderCall)
    (hb : b.WF) : (b.call c).WF := by
  cases c with
  | lookupOrInsert i n =>
    rw [b.call_lookupOrInsert]
    exact b.WF_lookupOrInsert i n hb
  | update n t hlo =>
    rw [b.call_update]
    exact b.WF_update n t hlo hb

theorem OpMetricsDbBuilder.get_call (b : OpMetricsDbBuilder) (c : BuilderCall) (p : Nat)
    (m : OpMetrics) (hm : b.db_.metrics_db[p]? = some m) :
    ∃ m', (b.call c).db_.metrics_db[p]? = some m' ∧
      m'.hlo_module_id = m.hlo_module_id ∧ m'.name = m.name ∧
      m'.provenance = m.provenance := by
  cases c with
  | lookupOrInsert i n =>
    rw [b.call_lookupOrInsert]
    exact ⟨m, b.get_lookupOrInsert i n p m hm, rfl, rfl, rfl⟩
  | update n t hlo =>
    rw [b.call_update]
    exact b.get_update n t hlo p m hm

theorem OpMetricsDbBuilder.run_nil (b : OpMetricsDbBuilder) : b.run [] = b := by
  simp only [OpMetricsDbBuilder.run, List.foldl_nil]

theorem OpMetricsDbBuilder.run_cons (b : OpMetricsDbBuilder) (c : BuilderCall)
    (rest : List BuilderCall) : b.run (c :: rest) = (b.call c).run rest := by
  simp only [OpMetricsDbBuilder.run, List.foldl_cons]

theorem OpMetricsDbBuilder.run_append (b : OpMetricsDbBuilder)
    (c₁ c₂ : List BuilderCall) : b.run (c₁ ++ c₂) = (b.run c₁).run c₂ := by
  simp only [OpMetricsDbBuilder.run, List.foldl_append]

theorem OpMetricsDbBuilder.WF_run (calls : List BuilderCall) :
    ∀ b : OpMetricsDbBuilder, b.WF → (b.run calls).WF := by
  induction calls with
  | nil => intro b hb; rw [b.run_nil]; exact hb
  | cons c rest ih =>
    intro b hb
    rw [b.run_cons]
    exact ih (b.call c) (b.WF_call c hb)

theorem OpMetricsDbBuilder.get_run (calls : List BuilderCall) :
    ∀ (b : OpMetricsDbBuilder) (p : Nat) (m : OpMetrics),
      b.db_.metrics_db[p]? = some m →
      ∃ m', (b.run calls).db_.metrics_db[p]? = some m' ∧
        m'.hlo_module_id = m.hlo_module_id ∧ m'.name = m.name ∧
        m'.provenance = m.provenance := by
  induction calls with
  | nil =>
    intro b p m hm
    rw [b.run_nil]
    exact ⟨m, hm, rfl, rfl, rfl⟩
  | cons c rest ih =>
    intro b p m hm
    rw [b.run_cons]
    obtain ⟨m₁, hm₁, e₁, e₂, e₃⟩ := b.get_call c p m hm
    obtain ⟨m₂, hm₂, f₁, f₂, f₃⟩ := ih (b.call c) p m₁ hm₁
    exact ⟨m₂, hm₂, f₁.trans e₁, f₂.trans e₂, f₃.trans e₃⟩

/-! ## Permuted inputs and the idle record -/

theorem any_eq_of_perm {α : Type} (f : α → Bool) (l l' : List α) (h : l.Perm l') :
    l.any f = l'.any f := by
  rw [Bool.eq_iff_iff, List.any_eq_true, List.any_eq_true]
  constructor
  · rintro ⟨x, hx, hf⟩
    exact ⟨x, h.mem_iff.mp hx, hf⟩
  · rintro ⟨x, hx, hf⟩
    exact ⟨x, h.mem_iff.mpr hx, hf⟩

theorem mem_targetNames_of_perm (prs : String → TfOp) (l l' : List OpMetrics)
    (h : l.Perm l') (n : String) : n ∈ targetNames prs l ↔ n ∈ targetNames prs l' := by
  unfold targetNames
  exact (h.map _).mem_iff

/-- The numeric fields of an aggregate do not depend on the order of the
input records. -/
theorem derivedRecord_perm (prs : String → TfOp) (l l' : List OpMetrics) (h : l.Perm l')
    (n : String) :
    (derivedRecord prs l n).occurrences = (derivedRecord prs l' n).occurrences ∧
    (derivedRecord prs l n).time_ps = (derivedRecord prs l' n).time_ps ∧
    (derivedRecord prs l n).self_time_ps = (derivedRecord prs l' n).self_time_ps ∧
    (derivedRecord prs l n).flops = (derivedRecord prs l' n).flops ∧
    (derivedRecord prs l n).bytes_accessed = (derivedRecord prs l' n).bytes_accessed := by
  unfold derivedRecord tfGroup
  exact OpMetrics.foldedAll_perm _ _ ((h.filter _).map _) _

/-- The database `AddIdleOp` leaves. -/
theorem AddIdleOp_eq (db : OpMetricsDb) :
    AddIdleOp db =
      { metrics_db := db.metrics_db ++
          [{ hlo_module_id := 0, name := "IDLE", category := "IDLE", provenance := "",
             occurrences := 1, time_ps := IdleTimePs db, self_time_ps := IdleTimePs db,
             flops := 0, bytes_accessed := 0 }],
        total_time_ps := db.total_time_ps,
        total_op_time_ps := db.total_op_time_ps } := by
  simp [AddIdleOp, OpMetricsDb.add_metrics_db, OpMetricsDb.mutate,
    set_append_singleton_length, OpMetrics.empty]

theorem IdleTimePs_lt (db : OpMetricsDb) : IdleTimePs db < 2 ^ 64 := by
  unfold IdleTimePs sub64 UINT64_MOD
  exact Nat.mod_lt _ (by norm_num)

/-! ## Conservation of the additive counters -/

theorem targetNames_append_singleton (prs : String → TfOp) (l : List OpMetrics)
    (h : OpMetrics) :
    targetNames prs (l ++ [h]) = targetNames prs l ++ [(tfOpTarget prs h).1] := by
  simp [targetNames]

/-- The aggregates after one more input record whose target name is new. -/
theorem derived_append_new (prs : String → TfOp) (l : List OpMetrics) (h : OpMetrics)
    (hnew : (tfOpTarget prs h).1 ∉ targetNames prs l) :
    (dedupFirst (targetNames prs (l ++ [h]))).map (derivedRecord prs (l ++ [h])) =
      (dedupFirst (targetNames prs l)).map (derivedRecord prs l) ++
        [(OpMetrics.fresh 0 (tfOpTarget prs h).1).folded (tfOpTarget prs h).2 h] := by
  rw [targetNames_append_singleton, dedupFirst_append_singleton, if_neg hnew,
    List.map_append, List.map_singleton, derivedRecord_append_same,
    derivedRecord_of_not_mem prs l _ hnew]
  congr 1
  apply List.map_congr_left
  intro x hx
  have hxn : (tfOpTarget prs h).1 ≠ x := by
    rintro rfl
    exact hnew ((mem_dedupFirst _ _).mp hx)
  exact derivedRecord_append_other prs l h x hxn

theorem sum_set_add (L : List Nat) :
    ∀ (p x y : Nat), L[p]? = some y → (L.set p x).sum + y = L.sum + x := by
  induction L with
  | nil => intro p x y h; simp at h
  | cons a rest ih =>
    intro p x y h
    cases p with
    | zero =>
      simp only [List.getElem?_cons_zero, Option.some.injEq] at h
      subst h
      simp only [List.set_cons_zero, List.sum_cons]
      omega
    | succ p =>
      simp only [List.getElem?_cons_succ] at h
      have := ih p x y h
      simp only [List.set_cons_succ, List.sum_cons]
      omega

/-- A counter that the fold adds up is conserved by the derivation: the sum
over the aggregates is the sum over the input modulo `2 ^ 64`, and exactly
when the sum over the input is below `2 ^ 64`. -/
theorem derived_sum_conserved (F : OpMetrics → Nat)
    (hF : ∀ (m : OpMetrics) (t : String) (h : OpMetrics),
      F (m.folded t h) = add64 (F m) (F h))
    (hF0 : ∀ n : String, F (OpMetrics.fresh 0 n) = 0)
    (prs : String → TfOp) (l : List OpMetrics) :
    ((dedupFirst (targetNames prs l)).map (fun n => F (derivedRecord prs l n))).sum % 2 ^ 64 =
      (l.map F).sum % 2 ^ 64 ∧
    ((l.map F).sum < 2 ^ 64 →
      ((dedupFirst (targetNames prs l)).map (fun n => F (derivedRecord prs l n))).sum =
        (l.map F).sum) := by
  induction l using List.reverseRecOn with
  | nil => simp [targetNames, dedupFirst]
  | append_singleton l h ih =>
    obtain ⟨ih1, ih2⟩ := ih
    have hsame : F (derivedRecord prs (l ++ [h]) (tfOpTarget prs h).1) =
        add64 (F (derivedRecord prs l (tfOpTarget prs h).1)) (F h) := by
      rw [derivedRecord_append_same, hF]
    have hfine : ((l ++ [h]).map F).sum = (l.map F).sum + F h := by simp
    rw [hfine, targetNames_append_singleton, dedupFirst_append_singleton]
    by_cases hmem : (tfOpTarget prs h).1 ∈ targetNames prs l
    · rw [if_pos hmem]
      obtain ⟨p, hp⟩ := List.mem_iff_getElem?.mp ((mem_dedupFirst _ _).mpr hmem)
      have hset := map_set_of_nodup (dedupFirst (targetNames prs l))
        (fun n => F (derivedRecord prs l n))
        (fun n => F (derivedRecord prs (l ++ [h]) n)) p _ (nodup_dedupFirst _) hp
        (fun x hx => by
          show F (derivedRecord prs (l ++ [h]) x) = F (derivedRecord prs l x)
          rw [derivedRecord_append_other prs l h x (Ne.symm hx)])
      have hget : ((dedupFirst (targetNames prs l)).map
          (fun n => F (derivedRecord prs l n)))[p]? =
          some (F (derivedRecord prs l (tfOpTarget prs h).1)) := by
        rw [List.getElem?_map, hp]
        rfl
      have hsum := sum_set_add _ p (F (derivedRecord prs (l ++ [h]) (tfOpTarget prs h).1))
        _ hget
      have hle := sum_set_add _ p 0 _ hget
      rw [hset] at hsum
      rw [hsame] at hsum
      unfold add64 UINT64_MOD at hsum
      constructor
      · omega
      · intro hlt
        have := ih2 (by omega)
        omega
    · rw [if_neg hmem, List.map_append, List.sum_append, List.map_singleton,
        List.sum_singleton, hsame, derivedRecord_of_not_mem prs l _ hmem, hF0]
      have hcongr : (dedupFirst (targetNames prs l)).map
          (fun n => F (derivedRecord prs (l ++ [h]) n)) =
          (dedupFirst (targetNames prs l)).map (fun n => F (derivedRecord prs l n)) := by
        apply List.map_congr_left
        intro x hx
        have hxn : (tfOpTarget prs h).1 ≠ x := by
          rintro rfl
          exact hmem ((mem_dedupFirst _ _).mp hx)
        show F (derivedRecord prs (l ++ [h]) x) = F (derivedRecord prs l x)
        rw [derivedRecord_append_other prs l h x hxn]
      rw [hcongr]
      unfold add64 UINT64_MOD
      constructor
      · omega
      · intro hlt
        have := ih2 (by omega)
        omega

/-! ## The claims -/

/-- C1: for every sequence of `LookupOrInsertNewOpMetrics` calls on a builder
attached to an empty database, there is one returned pointer per call; two
calls have equal keys `(module_id, name)` exactly when they return the same
position of the database (so equal keys give the same record and different
keys, also the same name under different module ids, give distinct records);
each returned position holds a record carrying the call's key; and the number
of records after the calls is the number of distinct keys presented. -/
theorem lookupOrInsert_sequence_identity (db : OpMetricsDb) (keys : List (Nat × String))
    (hdb : db.metrics_db = []) :
    ((OpMetricsDbBuilder.attach db).lookupAll keys).2.length = keys.length ∧
    (∀ (a c : Nat) (k₁ k₂ : Nat × String) (p₁ p₂ : Nat), keys[a]? = some k₁ → keys[c]? = some k₂ →
      ((OpMetricsDbBuilder.attach db).lookupAll keys).2[a]? = some p₁ →
      ((OpMetricsDbBuilder.attach db).lookupAll keys).2[c]? = some p₂ →
      (k₁ = k₂ ↔ p₁ = p₂)) ∧
    (∀ (a : Nat) (k : Nat × String) (p : Nat), keys[a]? = some k →
      ((OpMetricsDbBuilder.attach db).lookupAll keys).2[a]? = some p →
      ∃ m, ((OpMetricsDbBuilder.attach db).lookupAll keys).1.db_.metrics_db[p]? = some m ∧
        m.hlo_module_id = k.1 ∧ m.name = k.2) ∧
    ((OpMetricsDbBuilder.attach db).lookupAll keys).1.db_.metrics_db.length =
      keys.dedup.length := by
  have hb := OpMetricsDbBuilder.WF_attach db hdb
  refine ⟨OpMetricsDbBuilder.lookupAll_length keys _, ?_, ?_, ?_⟩
  · intro a c k₁ k₂ p₁ p₂ hk₁ hk₂ hp₁ hp₂
    have h₁ := OpMetricsDbBuilder.lookupAll_lookup keys _ a k₁ p₁ hk₁ hp₁
    have h₂ := OpMetricsDbBuilder.lookupAll_lookup keys _ c k₂ p₂ hk₂ hp₂
    constructor
    · rintro rfl
      rw [h₁] at h₂
      exact Option.some.inj h₂
    · rintro rfl
      obtain ⟨m₁, hm₁, e₁⟩ := OpMetricsDbBuilder.lookupAll_get keys _ hb a k₁ p₁ hk₁ hp₁
      obtain ⟨m₂, hm₂, e₂⟩ := OpMetricsDbBuilder.lookupAll_get keys _ hb c k₂ p₁ hk₂ hp₂
      rw [hm₁] at hm₂
      cases hm₂
      rw [← e₁, ← e₂]
  · intro a k p hk hp
    obtain ⟨m, hm, e⟩ := OpMetricsDbBuilder.lookupAll_get keys _ hb a k p hk hp
    refine ⟨m, hm, ?_, ?_⟩
    · rw [← e]; rfl
    · rw [← e]; rfl
  · have h := (OpMetricsDbBuilder.lookupAll_keys_perm db keys hdb).length_eq
    simpa using h

/-- Witness of C1: three calls with the keys `(1, "a")`, `(2, "a")`, `(1, "a")`
on an empty database leave two records. -/
theorem lookupOrInsert_sequence_identity_witness :
    OpMetricsDb.empty.metrics_db = [] ∧
    ((OpMetricsDbBuilder.attach OpMetricsDb.empty).lookupAll
      [(1, "a"), (2, "a"), (1, "a")]).1.db_.metrics_db.length = 2 :=
  ⟨rfl, (lookupOrInsert_sequence_identity OpMetricsDb.empty
    [(1, "a"), (2, "a"), (1, "a")] rfl).2.2.2.trans (by decide)⟩

/-- C2: for every builder state and key, a call of
`LookupOrInsertNewOpMetrics` whose key has no index entry appends exactly one
record at the end of the database, with the given module id and name and
every other field empty or zero, and returns the position of that record; a
call whose key has an index entry leaves the database exactly as it was and
returns the indexed position. In both cases every record of before is still
at its position, unchanged. In a well-formed builder the key has no index
entry exactly when no record of the database carries it. -/
theorem lookupOrInsert_effect (b : OpMetricsDbBuilder) (i : Nat) (n : String) :
    (b.op_metrics_map_.lookup i n = none →
      (b.LookupOrInsertNewOpMetrics i n).1.db_ =
        { metrics_db := b.db_.metrics_db ++
            [{ hlo_module_id := i, name := n, category := "", provenance := "",
               occurrences := 0, time_ps := 0, self_time_ps := 0, flops := 0,
               bytes_accessed := 0 }],
          total_time_ps := b.db_.total_time_ps,
          total_op_time_ps := b.db_.total_op_time_ps } ∧
      (b.LookupOrInsertNewOpMetrics i n).2 = b.db_.metrics_db.length) ∧
    (∀ p, b.op_metrics_map_.lookup i n = some p →
      (b.LookupOrInsertNewOpMetrics i n).1.db_ = b.db_ ∧
      (b.LookupOrInsertNewOpMetrics i n).2 = p) ∧
    (∀ (q : Nat) (m : OpMetrics), b.db_.metrics_db[q]? = some m →
      (b.LookupOrInsertNewOpMetrics i n).1.db_.metrics_db[q]? = some m) ∧
    (b.WF → (b.op_metrics_map_.lookup i n = none ↔
      ∀ m ∈ b.db_.metrics_db, ¬ (m.hlo_module_id = i ∧ m.name = n))) := by
  refine ⟨?_, ?_, ?_, ?_⟩
  · intro h
    rw [b.lookupOrInsert_miss i n h]
    exact ⟨rfl, rfl⟩
  · intro p h
    rw [b.lookupOrInsert_hit i n p h]
    exact ⟨rfl, rfl⟩
  · intro q m hm
    exact b.get_lookupOrInsert i n q m hm
  · intro hb
    constructor
    · rintro h m hm ⟨rfl, rfl⟩
      obtain ⟨q, hq⟩ := List.mem_iff_getElem?.mp hm
      have := hb.2 q m hq
      rw [h] at this
      cases this
    · intro h
      cases hl : b.op_metrics_map_.lookup i n with
      | none => rfl
      | some p =>
        obtain ⟨m, hm, hmi, hmn⟩ := hb.1 i n p hl
        exact absurd ⟨hmi, hmn⟩ (h m (List.mem_iff_getElem?.mpr ⟨p, hm⟩))

/-- C3: for every well-formed builder state, target name, target category and
source record, after `UpdateTfOpMetricsWithHloOpMetrics` the index designates
for the key `(0, tf_op_name)` a record with that key whose occurrences are
the maximum of the previous occurrences and the source's, and whose time_ps,
self_time_ps, flops and bytes_accessed are the previous value plus the
source's value modulo `2 ^ 64`; the previous values are those of the record
the key had before the call, and all zero when it had none. -/
theorem fold_combines_counters (b : OpMetricsDbBuilder) (hb : b.WF)
    (tf_op_name tf_op_type : String) (hlo_op_metrics : OpMetrics) :
    (∀ prev, b.find 0 tf_op_name = some prev →
      ∃ r, (b.UpdateTfOpMetricsWithHloOpMetrics tf_op_name tf_op_type hlo_op_metrics).find
          0 tf_op_name = some r ∧
        r.hlo_module_id = 0 ∧ r.name = tf_op_name ∧
        r.occurrences = max prev.occurrences hlo_op_metrics.occurrences ∧
        r.time_ps = (prev.time_ps + hlo_op_metrics.time_ps) % 2 ^ 64 ∧
        r.self_time_ps = (prev.self_time_ps + hlo_op_metrics.self_time_ps) % 2 ^ 64 ∧
        r.flops = (prev.flops + hlo_op_metrics.flops) % 2 ^ 64 ∧
        r.bytes_accessed = (prev.bytes_accessed + hlo_op_metrics.bytes_accessed) % 2 ^ 64) ∧
    (b.find 0 tf_op_name = none →
      ∃ r, (b.UpdateTfOpMetricsWithHloOpMetrics tf_op_name tf_op_type hlo_op_metrics).find
          0 tf_op_name = some r ∧
        r.hlo_module_id = 0 ∧ r.name = tf_op_name ∧
        r.occurrences = max 0 hlo_op_metrics.occurrences ∧
        r.time_ps = (0 + hlo_op_metrics.time_ps) % 2 ^ 64 ∧
        r.self_time_ps = (0 + hlo_op_metrics.self_time_ps) % 2 ^ 64 ∧
        r.flops = (0 + hlo_op_metrics.flops) % 2 ^ 64 ∧
        r.bytes_accessed = (0 + hlo_op_metrics.bytes_accessed) % 2 ^ 64) := by
  constructor
  · intro prev h
    refine ⟨_, b.find_update_hit tf_op_name tf_op_type hlo_op_metrics prev h, ?_, ?_,
      rfl, rfl, rfl, rfl, rfl⟩
    · exact (hb.find_key 0 tf_op_name prev h).1
    · exact (hb.find_key 0 tf_op_name prev h).2
  · intro h
    exact ⟨_, b.find_update_miss tf_op_name tf_op_type hlo_op_metrics
      ((hb.find_eq_none 0 tf_op_name).mp h), rfl, rfl, rfl, rfl, rfl, rfl, rfl⟩

/-- Witness of C3: a fold of a source record with time 50 and 3 occurrences
into the record `Add` of a builder that already holds it with time 100 and 2
occurrences. -/
theorem fold_combines_counters_witness :
    ∃ r, (((OpMetricsDbBuilder.attach OpMetricsDb.empty).UpdateTfOpMetricsWithHloOpMetrics
          "Add" "add" { OpMetrics.empty with time_ps := 100, occurrences := 2 }
        ).UpdateTfOpMetricsWithHloOpMetrics
          "Add" "add" { OpMetrics.empty with time_ps := 50, occurrences := 3 }).find 0 "Add" =
        some r ∧ r.occurrences = 3 ∧ r.time_ps = 150 := by
  obtain ⟨r, hr, -, -, ho, ht, -⟩ :=
    (fold_combines_counters
      ((OpMetricsDbBuilder.attach OpMetricsDb.empty).UpdateTfOpMetricsWithHloOpMetrics
        "Add" "add" { OpMetrics.empty with time_ps := 100, occurrences := 2 })
      (OpMetricsDbBuilder.WF_update _ _ _ _ (OpMetricsDbBuilder.WF_attach _ rfl))
      "Add" "add" { OpMetrics.empty with time_ps := 50, occurrences := 3 }).1
      { hlo_module_id := 0, name := "Add", category := "add", provenance := "",
        occurrences := 2, time_ps := 100, self_time_ps := 0, flops := 0,
        bytes_accessed := 0 }
      (by decide)
  exact ⟨r, hr, ho, ht⟩

/-- C4: the category is first-writer-wins under
`UpdateTfOpMetricsWithHloOpMetrics`. For every well-formed builder and target
name: a call leaves a non-empty category of the target record unchanged, and
sets an empty category (of an existing or of a newly created record) to the
call's `tf_op_type`; hence after a non-empty sequence of calls on that name
the category is the first non-empty string among the category of before and
the `tf_op_type`s of the calls in order, so that, when the category of before
is empty or the record is new, it is the `tf_op_type` of the first call whose
`tf_op_type` is non-empty, and empty if there is none. -/
theorem fold_category_first_writer_wins (b : OpMetricsDbBuilder) (hb : b.WF)
    (tf_op_name : String) :
    (∀ (t : String) (hlo prev : OpMetrics), b.find 0 tf_op_name = some prev →
      prev.category ≠ "" →
      ∃ r, (b.UpdateTfOpMetricsWithHloOpMetrics tf_op_name t hlo).find 0 tf_op_name = some r ∧
        r.category = prev.category) ∧
    (∀ (t : String) (hlo prev : OpMetrics), b.find 0 tf_op_name = some prev →
      prev.category = "" →
      ∃ r, (b.UpdateTfOpMetricsWithHloOpMetrics tf_op_name t hlo).find 0 tf_op_name = some r ∧
        r.category = t) ∧
    (∀ (t : String) (hlo : OpMetrics), b.find 0 tf_op_name = none →
      ∃ r, (b.UpdateTfOpMetricsWithHloOpMetrics tf_op_name t hlo).find 0 tf_op_name = some r ∧
        r.category = t) ∧
    (∀ (c : String × OpMetrics) (calls : List (String × OpMetrics)),
      ∃ r, (b.foldAll tf_op_name (c :: calls)).find 0 tf_op_name = some r ∧
        r.category =
          ((((b.find 0 tf_op_name).map OpMetrics.category).getD "" ::
            (c :: calls).map Prod.fst).find? (fun t => decide (t ≠ ""))).getD "") ∧
    (∀ (c : String × OpMetrics) (calls : List (String × OpMetrics)),
      ((b.find 0 tf_op_name).map OpMetrics.category).getD "" = "" →
      ∃ r, (b.foldAll tf_op_name (c :: calls)).find 0 tf_op_name = some r ∧
        r.category =
          (((c :: calls).map Prod.fst).find? (fun t => decide (t ≠ ""))).getD "") := by
  have hseq : ∀ (c : String × OpMetrics) (calls : List (String × OpMetrics)),
      ∃ r, (b.foldAll tf_op_name (c :: calls)).find 0 tf_op_name = some r ∧
        r.category =
          ((((b.find 0 tf_op_name).map OpMetrics.category).getD "" ::
            (c :: calls).map Prod.fst).find? (fun t => decide (t ≠ ""))).getD "" := by
    intro c calls
    refine ⟨_, OpMetricsDbBuilder.find_foldAll tf_op_name calls b c hb, ?_⟩
    rw [OpMetrics.foldedAll_category, firstNonEmpty_eq_find]
    cases b.find 0 tf_op_name <;> rfl
  refine ⟨?_, ?_, ?_, hseq, ?_⟩
  · intro t hlo prev h hc
    exact ⟨_, b.find_update_hit tf_op_name t hlo prev h, by simp [OpMetrics.folded, hc]⟩
  · intro t hlo prev h hc
    exact ⟨_, b.find_update_hit tf_op_name t hlo prev h, by simp [OpMetrics.folded, hc]⟩
  · intro t hlo h
    exact ⟨_, b.find_update_miss tf_op_name t hlo ((hb.find_eq_none 0 tf_op_name).mp h),
      by simp [OpMetrics.folded, OpMetrics.fresh]⟩
  · intro c calls h0
    obtain ⟨r, hr, hcat⟩ := hseq c calls
    refine ⟨r, hr, ?_⟩
    rw [hcat, h0]
    simp [List.find?]

/-- Witness of C4: three folds under the name `Add` into a new builder, with
the categories `""`, `"add"` and `"mul"`, leave the category `"add"`. -/
theorem fold_category_first_writer_wins_witness :
    ∃ r, ((OpMetricsDbBuilder.attach OpMetricsDb.empty).foldAll "Add"
        [("", OpMetrics.empty), ("add", OpMetrics.empty), ("mul", OpMetrics.empty)]).find
          0 "Add" = some r ∧ r.category = "add" := by
  obtain ⟨r, hr, hc⟩ :=
    (fold_category_first_writer_wins (OpMetricsDbBuilder.attach OpMetricsDb.empty)
      (OpMetricsDbBuilder.WF_attach _ rfl) "Add").2.2.2.2
      ("", OpMetrics.empty) [("add", OpMetrics.empty), ("mul", OpMetrics.empty)] rfl
  exact ⟨r, hr, hc.trans (by decide)⟩

/-- C5: the fold is order-independent on the numeric fields. For every target
name and every builder attached to an empty database: folding `A` then `B`
gives the same time_ps, self_time_ps, flops and bytes_accessed on the target
record as folding `B` then `A`, and in both orders the occurrences are
`max A.occurrences B.occurrences`; for three records, folding the aggregate
of `A` and `B` and then `C` gives the same numeric fields as folding `A` and
then the aggregate of `B` and `C`; and two sequences of folds that are
permutations of each other give the same numeric fields. -/
theorem fold_order_independent (db : OpMetricsDb) (hdb : db.metrics_db = [])
    (tf_op_name : String) :
    (∀ (tA tB : String) (A B : OpMetrics), ∃ rAB rBA,
      (((OpMetricsDbBuilder.attach db).UpdateTfOpMetricsWithHloOpMetrics tf_op_name tA
        A).UpdateTfOpMetricsWithHloOpMetrics tf_op_name tB B).find 0 tf_op_name = some rAB ∧
      (((OpMetricsDbBuilder.attach db).UpdateTfOpMetricsWithHloOpMetrics tf_op_name tB
        B).UpdateTfOpMetricsWithHloOpMetrics tf_op_name tA A).find 0 tf_op_name = some rBA ∧
      rAB.time_ps = rBA.time_ps ∧ rAB.self_time_ps = rBA.self_time_ps ∧
      rAB.flops = rBA.flops ∧ rAB.bytes_accessed = rBA.bytes_accessed ∧
      rAB.occurrences = max A.occurrences B.occurrences ∧
      rBA.occurrences = max A.occurrences B.occurrences) ∧
    (∀ (tA tB tC t : String) (A B C rAB rBC : OpMetrics),
      (((OpMetricsDbBuilder.attach db).UpdateTfOpMetricsWithHloOpMetrics tf_op_name tA
        A).UpdateTfOpMetricsWithHloOpMetrics tf_op_name tB B).find 0 tf_op_name = some rAB →
      (((OpMetricsDbBuilder.attach db).UpdateTfOpMetricsWithHloOpMetrics tf_op_name tB
        B).UpdateTfOpMetricsWithHloOpMetrics tf_op_name tC C).find 0 tf_op_name = some rBC →
      ∃ r₁ r₂,
        (((OpMetricsDbBuilder.attach db).UpdateTfOpMetricsWithHloOpMetrics tf_op_name t
          rAB).UpdateTfOpMetricsWithHloOpMetrics tf_op_name tC C).find 0 tf_op_name =
          some r₁ ∧
        (((OpMetricsDbBuilder.attach db).UpdateTfOpMetricsWithHloOpMetrics tf_op_name tA
          A).UpdateTfOpMetricsWithHloOpMetrics tf_op_name t rBC).find 0 tf_op_name =
          some r₂ ∧
        r₁.time_ps = r₂.time_ps ∧ r₁.self_time_ps = r₂.self_time_ps ∧
        r₁.flops = r₂.flops ∧ r₁.bytes_accessed = r₂.bytes_accessed ∧
        r₁.occurrences = r₂.occurrences) ∧
    (∀ l₁ l₂ : List (String × OpMetrics), l₁.Perm l₂ → l₁ ≠ [] → ∃ r₁ r₂,
      ((OpMetricsDbBuilder.attach db).foldAll tf_op_name l₁).find 0 tf_op_name = some r₁ ∧
      ((OpMetricsDbBuilder.attach db).foldAll tf_op_name l₂).find 0 tf_op_name = some r₂ ∧
      r₁.time_ps = r₂.time_ps ∧ r₁.self_time_ps = r₂.self_time_ps ∧
      r₁.flops = r₂.flops ∧ r₁.bytes_accessed = r₂.bytes_accessed ∧
      r₁.occurrences = r₂.occurrences) := by
  have hb := OpMetricsDbBuilder.WF_attach db hdb
  refine ⟨?_, ?_, ?_⟩
  · intro tA tB A B
    refine ⟨_, _, OpMetricsDbBuilder.find_update_update_attach db hdb tf_op_name tA tB A B,
      OpMetricsDbBuilder.find_update_update_attach db hdb tf_op_name tB tA B A, ?_⟩
    simp only [OpMetrics.folded, OpMetrics.fresh]
    refine ⟨add64_right_comm _ _ _, add64_right_comm _ _ _, add64_right_comm _ _ _,
      add64_right_comm _ _ _, ?_, ?_⟩
    · simp
    · simp [max_comm]
  · intro tA tB tC t A B C rAB rBC hAB hBC
    rw [OpMetricsDbBuilder.find_update_update_attach db hdb] at hAB hBC
    cases hAB
    cases hBC
    refine ⟨_, _, OpMetricsDbBuilder.find_update_update_attach db hdb tf_op_name _ _ _ _,
      OpMetricsDbBuilder.find_update_update_attach db hdb tf_op_name _ _ _ _, ?_⟩
    simp only [OpMetrics.folded, OpMetrics.fresh, add64, UINT64_MOD]
    refine ⟨by omega, by omega, by omega, by omega, ?_⟩
    simp [max_assoc]
  · intro l₁ l₂ hperm hne
    obtain ⟨c₁, rest₁, rfl⟩ := List.exists_cons_of_ne_nil hne
    have hne₂ : l₂ ≠ [] := by
      intro h
      rw [h] at hperm
      exact hne (List.perm_nil.mp hperm)
    obtain ⟨c₂, rest₂, rfl⟩ := List.exists_cons_of_ne_nil hne₂
    refine ⟨_, _, OpMetricsDbBuilder.find_foldAll tf_op_name rest₁ _ c₁ hb,
      OpMetricsDbBuilder.find_foldAll tf_op_name rest₂ _ c₂ hb, ?_⟩
    obtain ⟨ho, ht, hs, hf, hby⟩ := OpMetrics.foldedAll_perm _ _ hperm
      (((OpMetricsDbBuilder.attach db).find 0 tf_op_name).getD (OpMetrics.fresh 0 tf_op_name))
    exact ⟨ht, hs, hf, hby, ho⟩

/-- Witness of C5: records with times 100 and 50 and occurrences 3 and 5,
folded in both orders under the name `Add` into a new builder. -/
theorem fold_order_independent_witness :
    OpMetricsDb.empty.metrics_db = [] ∧
    ∃ rAB rBA,
      (((OpMetricsDbBuilder.attach OpMetricsDb.empty).UpdateTfOpMetricsWithHloOpMetrics
        "Add" "add"
        { OpMetrics.empty with time_ps := 100, occurrences := 3 }
        ).UpdateTfOpMetricsWithHloOpMetrics "Add" "add"
        { OpMetrics.empty with time_ps := 50, occurrences := 5 }).find 0 "Add" = some rAB ∧
      (((OpMetricsDbBuilder.attach OpMetricsDb.empty).UpdateTfOpMetricsWithHloOpMetrics
        "Add" "add"
        { OpMetrics.empty with time_ps := 50, occurrences := 5 }
        ).UpdateTfOpMetricsWithHloOpMetrics "Add" "add"
        { OpMetrics.empty with time_ps := 100, occurrences := 3 }).find 0 "Add" = some rBA ∧
      rAB.time_ps = rBA.time_ps ∧ rAB.occurrences = 5 ∧ rBA.occurrences = 5 := by
  refine ⟨rfl, ?_⟩
  obtain ⟨rAB, rBA, h₁, h₂, ht, -, -, -, ho₁, ho₂⟩ :=
    (fold_order_independent OpMetricsDb.empty rfl "Add").1 "add" "add"
      { OpMetrics.empty with time_ps := 100, occurrences := 3 }
      { OpMetrics.empty with time_ps := 50, occurrences := 5 }
  exact ⟨rAB, rBA, h₁, h₂, ht, ho₁, ho₂⟩

/-- C6, counterexample: with a division helper that returns 0 on a zero
divisor, the idle-time ratio of a database whose `total_time_ps` is 0 is not
0. -/
theorem idleTimeRatio_zero_total_counterexample :
    (∀ a : ℚ, SafeDivide a 0 = 0) ∧ OpMetricsDb.empty.total_time_ps = 0 ∧
    IdleTimeRatio SafeDivide OpMetricsDb.empty ≠ 0 := by
  refine ⟨fun a => by simp [SafeDivide], rfl, ?_⟩
  simp [IdleTimeRatio, SafeDivide, OpMetricsDb.empty]

/-- C6, as amended: for every database with `total_time_ps = 0`, whatever
`total_op_time_ps` is, `IdleTimeRatio` returns exactly 1, given a division
helper with `SafeDivide(a, 0) = 0`. -/
theorem idleTimeRatio_zero_total (safeDivide : ℚ → ℚ → ℚ) (db : OpMetricsDb)
    (hsd : ∀ a : ℚ, safeDivide a 0 = 0) (h0 : db.total_time_ps = 0) :
    IdleTimeRatio safeDivide db = 1 := by
  simp [IdleTimeRatio, h0, hsd]

/-- Witness of C6 as amended: a database with `total_time_ps = 0` and
`total_op_time_ps = 7`. -/
theorem idleTimeRatio_zero_total_witness :
    (∀ a : ℚ, SafeDivide a 0 = 0) ∧
    ({ metrics_db := [], total_time_ps := 0, total_op_time_ps := 7 } :
      OpMetricsDb).total_time_ps = 0 ∧
    IdleTimeRatio SafeDivide
      { metrics_db := [], total_time_ps := 0, total_op_time_ps := 7 } = 1 :=
  ⟨fun a => by simp [SafeDivide], rfl,
    idleTimeRatio_zero_total SafeDivide
      { metrics_db := [], total_time_ps := 0, total_op_time_ps := 7 }
      (fun a => by simp [SafeDivide]) rfl⟩

/-- C7: for every database of `uint64` totals with
`total_op_time_ps ≤ total_time_ps`, `IdleTimePs` returns the exact difference
`total_time_ps - total_op_time_ps`, so that `IdleTimePs + total_op_time_ps =
total_time_ps` and `IdleTimePs ≤ total_time_ps`, and it returns 0 when the two
totals are equal. (It returns a number only: the database is not written
to.) -/
theorem idleTimePs_exact (db : OpMetricsDb) (hlt : db.total_time_ps < 2 ^ 64)
    (hle : db.total_op_time_ps ≤ db.total_time_ps) :
    IdleTimePs db = db.total_time_ps - db.total_op_time_ps ∧
    IdleTimePs db + db.total_op_time_ps = db.total_time_ps ∧
    IdleTimePs db ≤ db.total_time_ps ∧
    (db.total_op_time_ps = db.total_time_ps → IdleTimePs db = 0) := by
  have h : IdleTimePs db = db.total_time_ps - db.total_op_time_ps := by
    unfold IdleTimePs sub64 UINT64_MOD
    norm_num at hlt ⊢
    omega
  refine ⟨h, ?_, ?_, ?_⟩ <;> omega

/-- Witness of C7: totals 200 and 150 give an idle time of 50. -/
theorem idleTimePs_exact_witness :
    IdleTimePs { metrics_db := [], total_time_ps := 200, total_op_time_ps := 150 } =
      200 - 150 :=
  (idleTimePs_exact { metrics_db := [], total_time_ps := 200, total_op_time_ps := 150 }
    (by decide) (by decide)).1

/-- C8, counterexample: on a database with `total_time_ps = 0` and
`total_op_time_ps = 1` the result of `IdleTimePs` is `2 ^ 64 - 1`, not 0. -/
theorem idleTimePs_clamp_counterexample :
    ({ metrics_db := [], total_time_ps := 0, total_op_time_ps := 1 } :
      OpMetricsDb).total_time_ps <
      ({ metrics_db := [], total_time_ps := 0, total_op_time_ps := 1 } :
        OpMetricsDb).total_op_time_ps ∧
    IdleTimePs { metrics_db := [], total_time_ps := 0, total_op_time_ps := 1 } =
      2 ^ 64 - 1 ∧
    IdleTimePs { metrics_db := [], total_time_ps := 0, total_op_time_ps := 1 } ≠ 0 := by
  decide

/-- C8, as amended: for every database of `uint64` totals whose
`total_op_time_ps` exceeds `total_time_ps`, `IdleTimePs` returns
`2 ^ 64 - (total_op_time_ps - total_time_ps)`, the wrapped-around difference,
which is not 0. -/
theorem idleTimePs_wraps (db : OpMetricsDb) (hlt : db.total_op_time_ps < 2 ^ 64)
    (hgt : db.total_time_ps < db.total_op_time_ps) :
    IdleTimePs db = 2 ^ 64 - (db.total_op_time_ps - db.total_time_ps) ∧
    IdleTimePs db ≠ 0 := by
  have h : IdleTimePs db = 2 ^ 64 - (db.total_op_time_ps - db.total_time_ps) := by
    unfold IdleTimePs sub64 UINT64_MOD
    norm_num at hlt ⊢
    omega
  refine ⟨h, ?_⟩
  rw [h]
  norm_num at hlt ⊢
  omega

/-- Witness of C8 as amended: totals 150 and 200. -/
theorem idleTimePs_wraps_witness :
    IdleTimePs { metrics_db := [], total_time_ps := 150, total_op_time_ps := 200 } =
      2 ^ 64 - (200 - 150) :=
  (idleTimePs_wraps { metrics_db := [], total_time_ps := 150, total_op_time_ps := 200 }
    (by decide) (by decide)).1

/-- C9: for every database, `AddIdleOp` appends exactly one record at the end,
with name `"IDLE"`, category `"IDLE"`, occurrences 1 and time_ps =
self_time_ps = `IdleTimePs` of the database before the call, module id, flops
and bytes_accessed 0 and an empty provenance; the records of before, their
order, `total_time_ps` and `total_op_time_ps` are unchanged. -/
theorem addIdleOp_effect (db : OpMetricsDb) :
    AddIdleOp db =
      { metrics_db := db.metrics_db ++
          [{ hlo_module_id := 0, name := "IDLE", category := "IDLE", provenance := "",
             occurrences := 1, time_ps := IdleTimePs db, self_time_ps := IdleTimePs db,
             flops := 0, bytes_accessed := 0 }],
        total_time_ps := db.total_time_ps,
        total_op_time_ps := db.total_op_time_ps } ∧
    (AddIdleOp db).metrics_db.length = db.metrics_db.length + 1 ∧
    (∀ (q : Nat) (m : OpMetrics), db.metrics_db[q]? = some m →
      (AddIdleOp db).metrics_db[q]? = some m) := by
  have h : AddIdleOp db =
      { metrics_db := db.metrics_db ++
          [{ hlo_module_id := 0, name := "IDLE", category := "IDLE", provenance := "",
             occurrences := 1, time_ps := IdleTimePs db, self_time_ps := IdleTimePs db,
             flops := 0, bytes_accessed := 0 }],
        total_time_ps := db.total_time_ps,
        total_op_time_ps := db.total_op_time_ps } := by
    simp [AddIdleOp, OpMetricsDb.add_metrics_db, OpMetricsDb.mutate,
      set_append_singleton_length, OpMetrics.empty]
  refine ⟨h, ?_, ?_⟩
  · rw [h]; simp
  · intro q m hm
    have hq : q < db.metrics_db.length := (List.getElem?_eq_some_iff.mp hm).1
    rw [h]
    simp [List.getElem?_append_left hq, hm]

/-- C10: for every HLO-op database and every provenance decoder, whenever
`CreateTfMetricsDbFromHloMetricsDb` returns a database, its `total_time_ps`
and `total_op_time_ps` are those of the input, whatever the records are. It
returns a database in every build without `DCHECK`s, and in a debug build
whenever every record with an empty provenance is named `"IDLE"`. -/
theorem createTf_copies_totals (dchecks : Bool) (ParseTfOpFullname : String → TfOp)
    (hlo_metrics_db : OpMetricsDb) :
    (∀ out, CreateTfMetricsDbFromHloMetricsDb dchecks ParseTfOpFullname hlo_metrics_db =
        some out →
      out.total_time_ps = hlo_metrics_db.total_time_ps ∧
      out.total_op_time_ps = hlo_metrics_db.total_op_time_ps) ∧
    (∃ out, CreateTfMetricsDbFromHloMetricsDb false ParseTfOpFullname hlo_metrics_db =
      some out) ∧
    ((∀ r ∈ hlo_metrics_db.metrics_db, r.provenance = "" → r.name = "IDLE") →
      ∃ out, CreateTfMetricsDbFromHloMetricsDb true ParseTfOpFullname hlo_metrics_db =
        some out) := by
  refine ⟨?_, ?_, ?_⟩
  · intro out h
    rw [CreateTfMetricsDbFromHloMetricsDb.eq_fold] at h
    split at h
    · cases h
    · cases h
      exact ⟨rfl, rfl⟩
  · rw [CreateTfMetricsDbFromHloMetricsDb.eq_fold]
    exact ⟨_, if_neg (by simp)⟩
  · intro hall
    rw [CreateTfMetricsDbFromHloMetricsDb.eq_fold]
    have hany : hlo_metrics_db.metrics_db.any failsIdleCheck = false := by
      rw [List.any_eq_false]
      intro r hr
      simp only [failsIdleCheck, Bool.and_eq_true, decide_eq_true_eq, not_and]
      intro hp hn
      exact hn (hall r hr hp)
    exact ⟨_, if_neg (by simp [hany])⟩

/-- C11: for every HLO-op database and every provenance decoder, each record
`r` of a database returned by `CreateTfMetricsDbFromHloMetricsDb` aggregates
exactly the input records whose target name (the decoded operation name when
the provenance is non-empty, `"IDLE"` otherwise) is `r.name`: that group is
not empty, `r`'s time_ps, self_time_ps, flops and bytes_accessed are the sums
of those fields over the group modulo `2 ^ 64`, and `r`'s occurrences are the
maximum of the occurrences over the group (an upper bound that is attained);
every input record's target name has a record, and no two records of the
result have the same name. -/
theorem createTf_aggregates_groups (dchecks : Bool) (ParseTfOpFullname : String → TfOp)
    (hlo_metrics_db out : OpMetricsDb)
    (hout : CreateTfMetricsDbFromHloMetricsDb dchecks ParseTfOpFullname hlo_metrics_db =
      some out) :
    (∀ r ∈ out.metrics_db,
      (∃ h ∈ hlo_metrics_db.metrics_db, (tfOpTarget ParseTfOpFullname h).1 = r.name) ∧
      r.time_ps =
        ((hlo_metrics_db.metrics_db.filter
          (fun h => decide ((tfOpTarget ParseTfOpFullname h).1 = r.name))).map
            OpMetrics.time_ps).sum % 2 ^ 64 ∧
      r.self_time_ps =
        ((hlo_metrics_db.metrics_db.filter
          (fun h => decide ((tfOpTarget ParseTfOpFullname h).1 = r.name))).map
            OpMetrics.self_time_ps).sum % 2 ^ 64 ∧
      r.flops =
        ((hlo_metrics_db.metrics_db.filter
          (fun h => decide ((tfOpTarget ParseTfOpFullname h).1 = r.name))).map
            OpMetrics.flops).sum % 2 ^ 64 ∧
      r.bytes_accessed =
        ((hlo_metrics_db.metrics_db.filter
          (fun h => decide ((tfOpTarget ParseTfOpFullname h).1 = r.name))).map
            OpMetrics.bytes_accessed).sum % 2 ^ 64 ∧
      (∀ h ∈ hlo_metrics_db.metrics_db, (tfOpTarget ParseTfOpFullname h).1 = r.name →
        h.occurrences ≤ r.occurrences) ∧
      (∃ h ∈ hlo_metrics_db.metrics_db, (tfOpTarget ParseTfOpFullname h).1 = r.name ∧
        h.occurrences = r.occurrences)) ∧
    (∀ h ∈ hlo_metrics_db.metrics_db,
      ∃ r ∈ out.metrics_db, r.name = (tfOpTarget ParseTfOpFullname h).1) ∧
    (out.metrics_db.map OpMetrics.name).Nodup := by
  obtain ⟨-, rfl⟩ := CreateTfMetricsDbFromHloMetricsDb.of_eq_some _ _ _ _ hout
  have hnames : ((dedupFirst (targetNames ParseTfOpFullname hlo_metrics_db.metrics_db)).map
      (derivedRecord ParseTfOpFullname hlo_metrics_db.metrics_db)).map OpMetrics.name =
      dedupFirst (targetNames ParseTfOpFullname hlo_metrics_db.metrics_db) := by
    rw [List.map_map]
    conv_rhs => rw [← List.map_id (dedupFirst _)]
    apply List.map_congr_left
    intro n _
    exact derivedRecord_name _ _ n
  refine ⟨?_, ?_, ?_⟩
  · intro r hr
    obtain ⟨n, hn, rfl⟩ := List.mem_map.mp hr
    rw [mem_dedupFirst, targetNames, List.mem_map] at hn
    obtain ⟨h0, hh0, hn0⟩ := hn
    have hne : tfGroup ParseTfOpFullname n hlo_metrics_db.metrics_db ≠ [] := by
      intro hnil
      have : h0 ∈ tfGroup ParseTfOpFullname n hlo_metrics_db.metrics_db :=
        (mem_tfGroup _ _ _ _).mpr ⟨hh0, hn0⟩
      rw [hnil] at this
      cases this
    obtain ⟨hub, hatt⟩ := derivedRecord_occurrences ParseTfOpFullname
      hlo_metrics_db.metrics_db n
    rw [derivedRecord_name]
    refine ⟨⟨h0, hh0, hn0⟩, derivedRecord_time_ps _ _ _, derivedRecord_self_time_ps _ _ _,
      derivedRecord_flops _ _ _, derivedRecord_bytes_accessed _ _ _, ?_, ?_⟩
    · intro h hh hn
      exact hub h ((mem_tfGroup _ _ _ _).mpr ⟨hh, hn⟩)
    · obtain ⟨h, hh, ho⟩ := hatt hne
      obtain ⟨hh1, hh2⟩ := (mem_tfGroup _ _ _ _).mp hh
      exact ⟨h, hh1, hh2, ho⟩
  · intro h hh
    refine ⟨derivedRecord ParseTfOpFullname hlo_metrics_db.metrics_db
      (tfOpTarget ParseTfOpFullname h).1, ?_, derivedRecord_name _ _ _⟩
    apply List.mem_map_of_mem
    rw [mem_dedupFirst, targetNames]
    exact List.mem_map_of_mem _ hh
  · rw [hnames]
    exact nodup_dedupFirst _

/-- Witness of C11: two records that decode to `("Add", "add")`, with times
100 and 50 and 3 occurrences each, give one record `Add` of category `add`
with time 150, 3 occurrences and self time 0; the totals 200 and 150 are
carried through. -/
theorem createTf_aggregates_groups_witness :
    CreateTfMetricsDbFromHloMetricsDb true (fun _ => { name := "Add", type := "add" })
      { metrics_db :=
          [{ hlo_module_id := 1, name := "a/op1", category := "", provenance := "Add:add",
             occurrences := 3, time_ps := 100, self_time_ps := 0, flops := 0,
             bytes_accessed := 0 },
           { hlo_module_id := 1, name := "a/op2", category := "", provenance := "Add:add",
             occurrences := 3, time_ps := 50, self_time_ps := 0, flops := 0,
             bytes_accessed := 0 }],
        total_time_ps := 200, total_op_time_ps := 150 } =
      some
        { metrics_db :=
            [{ hlo_module_id := 0, name := "Add", category := "add", provenance := "",
               occurrences := 3, time_ps := 150, self_time_ps := 0, flops := 0,
               bytes_accessed := 0 }],
          total_time_ps := 200, total_op_time_ps := 150 } ∧
    (150 : Nat) =
      List.sum (List.map OpMetrics.time_ps (List.filter
        (fun h => decide ((tfOpTarget (fun _ => { name := "Add", type := "add" }) h).1 =
          "Add"))
        [{ hlo_module_id := 1, name := "a/op1", category := "", provenance := "Add:add",
           occurrences := 3, time_ps := 100, self_time_ps := 0, flops := 0,
           bytes_accessed := 0 },
         { hlo_module_id := 1, name := "a/op2", category := "", provenance := "Add:add",
           occurrences := 3, time_ps := 50, self_time_ps := 0, flops := 0,
           bytes_accessed := 0 }])) % 2 ^ 64 :=
  ⟨by decide,
    ((createTf_aggregates_groups true (fun _ => { name := "Add", type := "add" })
      { metrics_db :=
          [{ hlo_module_id := 1, name := "a/op1", category := "", provenance := "Add:add",
             occurrences := 3, time_ps := 100, self_time_ps := 0, flops := 0,
             bytes_accessed := 0 },
           { hlo_module_id := 1, name := "a/op2", category := "", provenance := "Add:add",
             occurrences := 3, time_ps := 50, self_time_ps := 0, flops := 0,
             bytes_accessed := 0 }],
        total_time_ps := 200, total_op_time_ps := 150 }
      { metrics_db :=
          [{ hlo_module_id := 0, name := "Add", category := "add", provenance := "",
             occurrences := 3, time_ps := 150, self_time_ps := 0, flops := 0,
             bytes_accessed := 0 }],
        total_time_ps := 200, total_op_time_ps := 150 }
      (by decide)).1
      { hlo_module_id := 0, name := "Add", category := "add", provenance := "",
        occurrences := 3, time_ps := 150, self_time_ps := 0, flops := 0,
        bytes_accessed := 0 }
      (List.mem_singleton.mpr rfl)).2.1⟩

/-- C12, counterexample: in a debug build a record with an empty provenance
and the name `"x"` makes `CreateTfMetricsDbFromHloMetricsDb` fail on
`DCHECK_EQ(hlo_op_metrics.name(), "IDLE")`. -/
theorem createTf_empty_provenance_counterexample :
    ({ hlo_module_id := 0, name := "x", category := "", provenance := "",
       occurrences := 1, time_ps := 5, self_time_ps := 5, flops := 0,
       bytes_accessed := 0 } : OpMetrics).provenance = "" ∧
    CreateTfMetricsDbFromHloMetricsDb true (fun _ => { name := "Add", type := "add" })
      { metrics_db :=
          [{ hlo_module_id := 0, name := "x", category := "", provenance := "",
             occurrences := 1, time_ps := 5, self_time_ps := 5, flops := 0,
             bytes_accessed := 0 }],
        total_time_ps := 0, total_op_time_ps := 0 } = none := by
  decide

/-- C12, as amended: for every record `r` of `uint64` counters with an empty
provenance, in a build without `DCHECK`s whatever `r.name` is, and in a debug
build when `r.name` is `"IDLE"`, `CreateTfMetricsDbFromHloMetricsDb` on the
database consisting of `r` only returns a database with exactly one record,
with module id 0, name `"IDLE"`, category `"IDLE"` and `r`'s occurrences,
time_ps, self_time_ps, flops and bytes_accessed; in a debug build with
another name it fails on the `DCHECK`. -/
theorem createTf_empty_provenance (dchecks : Bool) (ParseTfOpFullname : String → TfOp)
    (r : OpMetrics) (total_time_ps total_op_time_ps : Nat) (hp : r.provenance = "")
    (hrange : r.time_ps < 2 ^ 64 ∧ r.self_time_ps < 2 ^ 64 ∧ r.flops < 2 ^ 64 ∧
      r.bytes_accessed < 2 ^ 64) :
    ((dchecks = false ∨ r.name = "IDLE") →
      CreateTfMetricsDbFromHloMetricsDb dchecks ParseTfOpFullname
        { metrics_db := [r], total_time_ps := total_time_ps,
          total_op_time_ps := total_op_time_ps } =
        some
          { metrics_db :=
              [{ hlo_module_id := 0, name := "IDLE", category := "IDLE", provenance := "",
                 occurrences := r.occurrences, time_ps := r.time_ps,
                 self_time_ps := r.self_time_ps, flops := r.flops,
                 bytes_accessed := r.bytes_accessed }],
            total_time_ps := total_time_ps, total_op_time_ps := total_op_time_ps }) ∧
    (dchecks = true → r.name ≠ "IDLE" →
      CreateTfMetricsDbFromHloMetricsDb dchecks ParseTfOpFullname
        { metrics_db := [r], total_time_ps := total_time_ps,
          total_op_time_ps := total_op_time_ps } = none) := by
  obtain ⟨h1, h2, h3, h4⟩ := hrange
  have htarget : tfOpTarget ParseTfOpFullname r = ("IDLE", "IDLE") := by
    simp [tfOpTarget, hp]
  constructor
  · intro hmode
    have hok : (dchecks && [r].any failsIdleCheck) = false := by
      rcases hmode with hd | hn
      · simp [hd]
      · simp [failsIdleCheck, hn]
    rw [CreateTfMetricsDbFromHloMetricsDb.eq_some_of _ _ _ hok]
    simp only [targetNames, List.map_cons, List.map_nil, htarget, dedupFirst,
      List.filter_nil, derivedRecord, tfGroup, List.filter_cons, decide_True, if_true,
      OpMetrics.foldedAll, OpMetrics.folded, OpMetrics.fresh, add64, UINT64_MOD,
      Nat.zero_add, Nat.mod_eq_of_lt h1, Nat.mod_eq_of_lt h2, Nat.mod_eq_of_lt h3,
      Nat.mod_eq_of_lt h4, Nat.zero_max]
  · intro hd hn
    rw [CreateTfMetricsDbFromHloMetricsDb.eq_derived]
    simp [hd, failsIdleCheck, hp, hn]

/-- Witness of C12 as amended: a record named `"x"` with an empty provenance,
in a build without `DCHECK`s. -/
theorem createTf_empty_provenance_witness :
    CreateTfMetricsDbFromHloMetricsDb false (fun _ => { name := "Add", type := "add" })
      { metrics_db :=
          [{ hlo_module_id := 7, name := "x", category := "c", provenance := "",
             occurrences := 2, time_ps := 5, self_time_ps := 4, flops := 3,
             bytes_accessed := 1 }],
        total_time_ps := 9, total_op_time_ps := 5 } =
      some
        { metrics_db :=
            [{ hlo_module_id := 0, name := "IDLE", category := "IDLE", provenance := "",
               occurrences := 2, time_ps := 5, self_time_ps := 4, flops := 3,
               bytes_accessed := 1 }],
          total_time_ps := 9, total_op_time_ps := 5 } :=
  (createTf_empty_provenance false (fun _ => { name := "Add", type := "add" })
    { hlo_module_id := 7, name := "x", category := "c", provenance := "",
      occurrences := 2, time_ps := 5, self_time_ps := 4, flops := 3, bytes_accessed := 1 }
    9 5 rfl (by decide)).1 (Or.inl rfl)

/-- C13, counterexample: in a build without `DCHECK`s the constructor does not
fail on a null pointer, nor on a database that already contains a record. -/
theorem construct_fatal_counterexample :
    OpMetricsDbBuilder.constructAt false none = some (none, []) ∧
    ({ metrics_db := [OpMetrics.empty], total_time_ps := 0, total_op_time_ps := 0 } :
      OpMetricsDb).metrics_db ≠ [] ∧
    OpMetricsDbBuilder.constructAt false
      (some { metrics_db := [OpMetrics.empty], total_time_ps := 0, total_op_time_ps := 0 }) =
      some (some { metrics_db := [OpMetrics.empty], total_time_ps := 0,
                   total_op_time_ps := 0 }, []) :=
  ⟨rfl, by decide, rfl⟩

/-- C13, as amended: in a debug build (with `DCHECK`s) constructing an
`OpMetricsDbBuilder` fails fatally if and only if the target database is null
or already contains at least one record; in a build without `DCHECK`s it
never fails fatally; in both, on a non-null database with zero records
construction succeeds, with an empty index, and leaves the database as it
was, empty. -/
theorem construct_fatal_iff (db : Option OpMetricsDb) :
    (OpMetricsDbBuilder.constructAt true db = none ↔
      (db = none ∨ ∃ d, db = some d ∧ d.metrics_db ≠ [])) ∧
    OpMetricsDbBuilder.constructAt false db = some (db, []) ∧
    (∀ (dchecks : Bool) (d : OpMetricsDb), db = some d → d.metrics_db = [] →
      OpMetricsDbBuilder.constructAt dchecks db = some (some d, []) ∧
      OpMetricsDbBuilder.construct dchecks d = some { db_ := d, op_metrics_map_ := [] }) := by
  refine ⟨?_, ?_, ?_⟩
  · cases db with
    | none => simp [OpMetricsDbBuilder.constructAt]
    | some d =>
      cases hl : d.metrics_db with
      | nil =>
        simp [OpMetricsDbBuilder.constructAt, OpMetricsDbBuilder.construct, hl,
          OpMetricsDbBuilder.attach]
      | cons m rest =>
        simp [OpMetricsDbBuilder.constructAt, OpMetricsDbBuilder.construct, hl]
  · cases db with
    | none => rfl
    | some d => rfl
  · rintro dchecks d rfl hd
    cases dchecks <;>
      simp [OpMetricsDbBuilder.constructAt, OpMetricsDbBuilder.construct, hd,
        OpMetricsDbBuilder.attach]

/-- C14: starting from a builder attached to an empty database, after any
sequence of `LookupOrInsertNewOpMetrics` and
`UpdateTfOpMetricsWithHloOpMetrics` calls no two records of the database
share the same `(module_id, name)` pair; the index has an entry for a key,
with a position, exactly when the record at that position carries the key;
and a record that was at some position after part of the sequence is still
at that position after the whole sequence, with the same module id and
name. -/
theorem builder_invariant (db : OpMetricsDb) (hdb : db.metrics_db = [])
    (calls : List BuilderCall) :
    (∀ (p q : Nat) (m₁ m₂ : OpMetrics),
      ((OpMetricsDbBuilder.attach db).run calls).db_.metrics_db[p]? = some m₁ →
      ((OpMetricsDbBuilder.attach db).run calls).db_.metrics_db[q]? = some m₂ →
      m₁.hlo_module_id = m₂.hlo_module_id → m₁.name = m₂.name → p = q) ∧
    (∀ (i : Nat) (n : String) (p : Nat),
      ((OpMetricsDbBuilder.attach db).run calls).op_metrics_map_.lookup i n = some p ↔
      ∃ m, ((OpMetricsDbBuilder.attach db).run calls).db_.metrics_db[p]? = some m ∧
        m.hlo_module_id = i ∧ m.name = n) ∧
    (∀ (done rest : List BuilderCall) (p : Nat) (m : OpMetrics), calls = done ++ rest →
      ((OpMetricsDbBuilder.attach db).run done).db_.metrics_db[p]? = some m →
      ∃ m', ((OpMetricsDbBuilder.attach db).run calls).db_.metrics_db[p]? = some m' ∧
        m'.hlo_module_id = m.hlo_module_id ∧ m'.name = m.name) := by
  have hwf := OpMetricsDbBuilder.WF_run calls _ (OpMetricsDbBuilder.WF_attach db hdb)
  refine ⟨?_, ?_, ?_⟩
  · intro p q m₁ m₂ h₁ h₂ hi hn
    have e₁ := hwf.2 p m₁ h₁
    have e₂ := hwf.2 q m₂ h₂
    rw [hi, hn, e₂] at e₁
    exact (Option.some.inj e₁).symm
  · intro i n p
    constructor
    · exact hwf.1 i n p
    · rintro ⟨m, hm, rfl, rfl⟩
      exact hwf.2 p m hm
  · rintro done rest p m rfl hm
    rw [OpMetricsDbBuilder.run_append]
    obtain ⟨m', hm', e₁, e₂, -⟩ := OpMetricsDbBuilder.get_run rest _ p m hm
    exact ⟨m', hm', e₁, e₂⟩

/-- Witness of C14: two folds under the name `Add` and a lookup of the key
`(1, "Add")` on an empty database leave two records, at different positions
for the two keys. -/
theorem builder_invariant_witness :
    OpMetricsDb.empty.metrics_db = [] ∧
    ∃ m, ((OpMetricsDbBuilder.attach OpMetricsDb.empty).run
        [BuilderCall.update "Add" "add" OpMetrics.empty,
         BuilderCall.lookupOrInsert 1 "Add",
         BuilderCall.update "Add" "mul" OpMetrics.empty]).db_.metrics_db[1]? = some m ∧
      m.hlo_module_id = 1 ∧ m.name = "Add" :=
  ⟨rfl, ((builder_invariant OpMetricsDb.empty rfl
    [BuilderCall.update "Add" "add" OpMetrics.empty,
     BuilderCall.lookupOrInsert 1 "Add",
     BuilderCall.update "Add" "mul" OpMetrics.empty]).2.1 1 "Add" 1).mp (by decide)⟩

/-- C16: `UpdateTfOpMetricsWithHloOpMetrics` changes nothing but the target
record's category, occurrences, time_ps, self_time_ps, flops and
bytes_accessed. For every well-formed builder and every call: every record
whose key is not `(0, tf_op_name)` is unchanged at its position; a record
with that key stays at its position with its module id, name and provenance;
`total_time_ps` and `total_op_time_ps` of the database are unchanged; the
record count grows by one, by a record of key `(0, tf_op_name)` with an empty
provenance at the end, when the key had no record, and is unchanged
otherwise. (The source record is an argument passed by constant reference:
the call returns the builder only.) -/
theorem fold_frame (b : OpMetricsDbBuilder) (hb : b.WF) (tf_op_name tf_op_type : String)
    (hlo_op_metrics : OpMetrics) :
    (∀ (q : Nat) (m : OpMetrics), b.db_.metrics_db[q]? = some m →
      ¬ (m.hlo_module_id = 0 ∧ m.name = tf_op_name) →
      (b.UpdateTfOpMetricsWithHloOpMetrics tf_op_name tf_op_type
        hlo_op_metrics).db_.metrics_db[q]? = some m) ∧
    (∀ (q : Nat) (m : OpMetrics), b.db_.metrics_db[q]? = some m →
      ∃ m', (b.UpdateTfOpMetricsWithHloOpMetrics tf_op_name tf_op_type
          hlo_op_metrics).db_.metrics_db[q]? = some m' ∧
        m'.hlo_module_id = m.hlo_module_id ∧ m'.name = m.name ∧
        m'.provenance = m.provenance) ∧
    (b.UpdateTfOpMetricsWithHloOpMetrics tf_op_name tf_op_type
      hlo_op_metrics).db_.total_time_ps = b.db_.total_time_ps ∧
    (b.UpdateTfOpMetricsWithHloOpMetrics tf_op_name tf_op_type
      hlo_op_metrics).db_.total_op_time_ps = b.db_.total_op_time_ps ∧
    ((∀ m ∈ b.db_.metrics_db, ¬ (m.hlo_module_id = 0 ∧ m.name = tf_op_name)) →
      (b.UpdateTfOpMetricsWithHloOpMetrics tf_op_name tf_op_type
        hlo_op_metrics).db_.metrics_db.length = b.db_.metrics_db.length + 1 ∧
      ∃ r, (b.UpdateTfOpMetricsWithHloOpMetrics tf_op_name tf_op_type
          hlo_op_metrics).db_.metrics_db[b.db_.metrics_db.length]? = some r ∧
        r.hlo_module_id = 0 ∧ r.name = tf_op_name ∧ r.provenance = "") ∧
    ((∃ m ∈ b.db_.metrics_db, m.hlo_module_id = 0 ∧ m.name = tf_op_name) →
      (b.UpdateTfOpMetricsWithHloOpMetrics tf_op_name tf_op_type
        hlo_op_metrics).db_.metrics_db.length = b.db_.metrics_db.length) := by
  refine ⟨?_, ?_, ?_, ?_, ?_, ?_⟩
  · intro q m hm hkey
    cases hl : b.op_metrics_map_.lookup 0 tf_op_name with
    | none =>
      rw [b.update_miss _ _ _ hl]
      have hq : q < b.db_.metrics_db.length := (List.getElem?_eq_some_iff.mp hm).1
      simp [List.getElem?_append_left hq, hm]
    | some p =>
      obtain ⟨m0, hm0, h1, h2⟩ := hb.1 0 tf_op_name p hl
      rw [b.update_hit _ _ _ p m0 hl hm0]
      have hpq : p ≠ q := by
        rintro rfl
        rw [hm0] at hm
        cases hm
        exact hkey ⟨h1, h2⟩
      simp [List.getElem?_set, hpq, hm]
  · intro q m hm
    exact b.get_update _ _ _ q m hm
  · rw [b.update_eq]
    simp only [OpMetricsDb.mutate_total_time_ps]
    cases hl : b.op_metrics_map_.lookup 0 tf_op_name with
    | none => rw [b.lookupOrInsert_miss 0 _ hl]
    | some p => rw [b.lookupOrInsert_hit 0 _ p hl]
  · rw [b.update_eq]
    simp only [OpMetricsDb.mutate_total_op_time_ps]
    cases hl : b.op_metrics_map_.lookup 0 tf_op_name with
    | none => rw [b.lookupOrInsert_miss 0 _ hl]
    | some p => rw [b.lookupOrInsert_hit 0 _ p hl]
  · intro habs
    have hl : b.op_metrics_map_.lookup 0 tf_op_name = none := by
      cases hl : b.op_metrics_map_.lookup 0 tf_op_name with
      | none => rfl
      | some p =>
        obtain ⟨m0, hm0, h1, h2⟩ := hb.1 0 tf_op_name p hl
        exact absurd ⟨h1, h2⟩ (habs m0 (List.mem_iff_getElem?.mpr ⟨p, hm0⟩))
    rw [b.update_miss _ _ _ hl]
    refine ⟨by simp, (OpMetrics.fresh 0 tf_op_name).folded tf_op_type hlo_op_metrics,
      by simp, rfl, rfl, rfl⟩
  · rintro ⟨m, hm, h1, h2⟩
    obtain ⟨p, hp⟩ := List.mem_iff_getElem?.mp hm
    have hl := hb.2 p m hp
    rw [h1, h2] at hl
    rw [b.update_hit _ _ _ p m hl hp]
    simp

/-- Witness of C16: a fold under the name `Mul` into a builder that holds the
record `Add` leaves that record as it was and adds one record. -/
theorem fold_frame_witness :
    (((OpMetricsDbBuilder.attach OpMetricsDb.empty).UpdateTfOpMetricsWithHloOpMetrics
        "Add" "add" { OpMetrics.empty with time_ps := 100, occurrences := 2 }
      ).UpdateTfOpMetricsWithHloOpMetrics
        "Mul" "mul" { OpMetrics.empty with time_ps := 50, occurrences := 3 }
      ).db_.metrics_db[0]? =
      some { hlo_module_id := 0, name := "Add", category := "add", provenance := "",
             occurrences := 2, time_ps := 100, self_time_ps := 0, flops := 0,
             bytes_accessed := 0 } :=
  (fold_frame
    ((OpMetricsDbBuilder.attach OpMetricsDb.empty).UpdateTfOpMetricsWithHloOpMetrics
      "Add" "add" { OpMetrics.empty with time_ps := 100, occurrences := 2 })
    (OpMetricsDbBuilder.WF_update _ _ _ _ (OpMetricsDbBuilder.WF_attach _ rfl))
    "Mul" "mul" { OpMetrics.empty with time_ps := 50, occurrences := 3 }).1 0
    { hlo_module_id := 0, name := "Add", category := "add", provenance := "",
      occurrences := 2, time_ps := 100, self_time_ps := 0, flops := 0,
      bytes_accessed := 0 }
    (by decide) (by decide)

/-- C17: the derivation is insensitive to the order of the input, and the
fold is idempotent on the occurrences. For every HLO-op database on which
`CreateTfMetricsDbFromHloMetricsDb` returns a database and every permutation
of its records, the function returns a database on the permuted input too,
with as many records, and for each name the two results hold a record of
that name with the same occurrences, time_ps, self_time_ps, flops and
bytes_accessed; and folding the same source record a second time into a
record leaves the occurrences of that record unchanged. -/
theorem createTf_order_insensitive (dchecks : Bool) (ParseTfOpFullname : String → TfOp)
    (hlo_metrics_db out : OpMetricsDb) (permuted : List OpMetrics)
    (hperm : hlo_metrics_db.metrics_db.Perm permuted)
    (hout : CreateTfMetricsDbFromHloMetricsDb dchecks ParseTfOpFullname hlo_metrics_db =
      some out) :
    (∃ out', CreateTfMetricsDbFromHloMetricsDb dchecks ParseTfOpFullname
        { metrics_db := permuted, total_time_ps := hlo_metrics_db.total_time_ps,
          total_op_time_ps := hlo_metrics_db.total_op_time_ps } = some out' ∧
      out'.metrics_db.length = out.metrics_db.length ∧
      (∀ r ∈ out.metrics_db, ∃ r' ∈ out'.metrics_db, r'.name = r.name ∧
        r'.occurrences = r.occurrences ∧ r'.time_ps = r.time_ps ∧
        r'.self_time_ps = r.self_time_ps ∧ r'.flops = r.flops ∧
        r'.bytes_accessed = r.bytes_accessed) ∧
      (∀ r' ∈ out'.metrics_db, ∃ r ∈ out.metrics_db, r.name = r'.name ∧
        r.occurrences = r'.occurrences ∧ r.time_ps = r'.time_ps ∧
        r.self_time_ps = r'.self_time_ps ∧ r.flops = r'.flops ∧
        r.bytes_accessed = r'.bytes_accessed)) ∧
    (∀ (b : OpMetricsDbBuilder), b.WF → ∀ (n t t' : String) (hlo : OpMetrics),
      ∃ r₁ r₂, (b.UpdateTfOpMetricsWithHloOpMetrics n t hlo).find 0 n = some r₁ ∧
        ((b.UpdateTfOpMetricsWithHloOpMetrics n t hlo).UpdateTfOpMetricsWithHloOpMetrics
          n t' hlo).find 0 n = some r₂ ∧
        r₂.occurrences = r₁.occurrences) := by
  obtain ⟨hok, rfl⟩ := CreateTfMetricsDbFromHloMetricsDb.of_eq_some _ _ _ _ hout
  constructor
  · have hok' : (dchecks && permuted.any failsIdleCheck) = false := by
      rw [← any_eq_of_perm failsIdleCheck _ _ hperm]
      exact hok
    refine ⟨_, CreateTfMetricsDbFromHloMetricsDb.eq_some_of dchecks ParseTfOpFullname
      { metrics_db := permuted, total_time_ps := hlo_metrics_db.total_time_ps,
        total_op_time_ps := hlo_metrics_db.total_op_time_ps } hok', ?_, ?_, ?_⟩
    · simp only [List.length_map]
      apply List.Perm.length_eq
      rw [List.perm_ext_iff_of_nodup (nodup_dedupFirst _) (nodup_dedupFirst _)]
      intro n
      rw [mem_dedupFirst, mem_dedupFirst]
      exact (mem_targetNames_of_perm ParseTfOpFullname _ _ hperm n).symm
    · intro r hr
      obtain ⟨n, hn, rfl⟩ := List.mem_map.mp hr
      rw [mem_dedupFirst, mem_targetNames_of_perm ParseTfOpFullname _ _ hperm] at hn
      obtain ⟨ho, ht, hs, hf, hby⟩ :=
        derivedRecord_perm ParseTfOpFullname _ _ hperm n
      refine ⟨derivedRecord ParseTfOpFullname permuted n,
        List.mem_map_of_mem _ ((mem_dedupFirst _ _).mpr hn), ?_, ho.symm, ht.symm, hs.symm,
        hf.symm, hby.symm⟩
      rw [derivedRecord_name, derivedRecord_name]
    · intro r' hr'
      obtain ⟨n, hn, rfl⟩ := List.mem_map.mp hr'
      rw [mem_dedupFirst, ← mem_targetNames_of_perm ParseTfOpFullname _ _ hperm] at hn
      obtain ⟨ho, ht, hs, hf, hby⟩ :=
        derivedRecord_perm ParseTfOpFullname _ _ hperm n
      refine ⟨derivedRecord ParseTfOpFullname hlo_metrics_db.metrics_db n,
        List.mem_map_of_mem _ ((mem_dedupFirst _ _).mpr hn), ?_, ho, ht, hs, hf, hby⟩
      rw [derivedRecord_name, derivedRecord_name]
  · intro b hb n t t' hlo
    have h₁ := b.find_update hb n t hlo
    have h₂ := (b.UpdateTfOpMetricsWithHloOpMetrics n t hlo).find_update
      (b.WF_update n t hlo hb) n t' hlo
    rw [h₁, Option.getD_some] at h₂
    refine ⟨_, _, h₁, h₂, ?_⟩
    simp [OpMetrics.folded]

/-- Witness of C17: two records that decode to `("Add", "add")`, with times
100 and 50, in both orders. -/
theorem createTf_order_insensitive_witness :
    ∃ out', CreateTfMetricsDbFromHloMetricsDb true (fun _ => { name := "Add", type := "add" })
        { metrics_db :=
            [{ OpMetrics.empty with provenance := "p", time_ps := 50, occurrences := 1 },
             { OpMetrics.empty with provenance := "p", time_ps := 100, occurrences := 3 }],
          total_time_ps := 200, total_op_time_ps := 150 } = some out' ∧
      out'.metrics_db.length = 1 :=
  (createTf_order_insensitive true (fun _ => { name := "Add", type := "add" })
    { metrics_db :=
        [{ OpMetrics.empty with provenance := "p", time_ps := 100, occurrences := 3 },
         { OpMetrics.empty with provenance := "p", time_ps := 50, occurrences := 1 }],
      total_time_ps := 200, total_op_time_ps := 150 }
    { metrics_db :=
        [{ hlo_module_id := 0, name := "Add", category := "add", provenance := "",
           occurrences := 3, time_ps := 150, self_time_ps := 0, flops := 0,
           bytes_accessed := 0 }],
      total_time_ps := 200, total_op_time_ps := 150 }
    [{ OpMetrics.empty with provenance := "p", time_ps := 50, occurrences := 1 },
     { OpMetrics.empty with provenance := "p", time_ps := 100, occurrences := 3 }]
    (List.Perm.swap _ _ [])
    (by decide)).1.imp (fun _ h => ⟨h.1, h.2.1⟩)

/-- C18: `AddIdleOp` is not idempotent and does not deduplicate. For every
database, calling it twice increases the record count by exactly two; the
last two records are both named `"IDLE"` with category `"IDLE"`, occurrences
1 and time_ps = self_time_ps = `IdleTimePs` of the database before the
calls; the totals are untouched by the first call, so the second computes the
same idle time. -/
theorem addIdleOp_twice (db : OpMetricsDb) :
    AddIdleOp (AddIdleOp db) =
      { metrics_db := db.metrics_db ++
          [{ hlo_module_id := 0, name := "IDLE", category := "IDLE", provenance := "",
             occurrences := 1, time_ps := IdleTimePs db, self_time_ps := IdleTimePs db,
             flops := 0, bytes_accessed := 0 },
           { hlo_module_id := 0, name := "IDLE", category := "IDLE", provenance := "",
             occurrences := 1, time_ps := IdleTimePs db, self_time_ps := IdleTimePs db,
             flops := 0, bytes_accessed := 0 }],
        total_time_ps := db.total_time_ps,
        total_op_time_ps := db.total_op_time_ps } ∧
    (AddIdleOp (AddIdleOp db)).metrics_db.length = db.metrics_db.length + 2 ∧
    (AddIdleOp db).total_time_ps = db.total_time_ps ∧
    (AddIdleOp db).total_op_time_ps = db.total_op_time_ps ∧
    IdleTimePs (AddIdleOp db) = IdleTimePs db := by
  have hidle : IdleTimePs (AddIdleOp db) = IdleTimePs db := by
    rw [AddIdleOp_eq db]
    rfl
  have h2 : AddIdleOp (AddIdleOp db) =
      { metrics_db := db.metrics_db ++
          [{ hlo_module_id := 0, name := "IDLE", category := "IDLE", provenance := "",
             occurrences := 1, time_ps := IdleTimePs db, self_time_ps := IdleTimePs db,
             flops := 0, bytes_accessed := 0 },
           { hlo_module_id := 0, name := "IDLE", category := "IDLE", provenance := "",
             occurrences := 1, time_ps := IdleTimePs db, self_time_ps := IdleTimePs db,
             flops := 0, bytes_accessed := 0 }],
        total_time_ps := db.total_time_ps,
        total_op_time_ps := db.total_op_time_ps } := by
    rw [AddIdleOp_eq (AddIdleOp db), hidle, AddIdleOp_eq db]
    simp
  refine ⟨h2, ?_, ?_, ?_, hidle⟩
  · rw [h2]; simp
  · rw [AddIdleOp_eq db]
  · rw [AddIdleOp_eq db]

/-- C15: for every HLO-op database on which
`CreateTfMetricsDbFromHloMetricsDb` returns a database, the sequence of the
names of the returned records is the sequence of the target names of the
input records (the decoded operation name, or `"IDLE"` for an empty
provenance) with duplicates removed, in order of first appearance; every
returned record has module id 0; the record count is the number of distinct
target names. On an input without records the function returns a database
without records that carries the input totals, the default database when
these are 0. -/
theorem createTf_names_first_appearance (dchecks : Bool)
    (ParseTfOpFullname : String → TfOp) (hlo_metrics_db out : OpMetricsDb)
    (hout : CreateTfMetricsDbFromHloMetricsDb dchecks ParseTfOpFullname hlo_metrics_db =
      some out) :
    out.metrics_db.map OpMetrics.name =
      dedupFirst (hlo_metrics_db.metrics_db.map
        (fun h => (tfOpTarget ParseTfOpFullname h).1)) ∧
    (∀ r ∈ out.metrics_db, r.hlo_module_id = 0) ∧
    out.metrics_db.length =
      (hlo_metrics_db.metrics_db.map
        (fun h => (tfOpTarget ParseTfOpFullname h).1)).dedup.length ∧
    (hlo_metrics_db.metrics_db = [] →
      CreateTfMetricsDbFromHloMetricsDb dchecks ParseTfOpFullname hlo_metrics_db =
        some { metrics_db := [], total_time_ps := hlo_metrics_db.total_time_ps,
               total_op_time_ps := hlo_metrics_db.total_op_time_ps } ∧
      (hlo_metrics_db.total_time_ps = 0 → hlo_metrics_db.total_op_time_ps = 0 →
        out = OpMetricsDb.empty)) := by
  obtain ⟨-, hrec⟩ := CreateTfMetricsDbFromHloMetricsDb.of_eq_some _ _ _ _ hout
  have hnames : out.metrics_db.map OpMetrics.name =
      dedupFirst (targetNames ParseTfOpFullname hlo_metrics_db.metrics_db) := by
    rw [hrec, List.map_map]
    conv_rhs => rw [← List.map_id (dedupFirst _)]
    apply List.map_congr_left
    intro n _
    exact derivedRecord_name _ _ n
  refine ⟨hnames, ?_, ?_, ?_⟩
  · intro r hr
    rw [hrec] at hr
    obtain ⟨n, -, rfl⟩ := List.mem_map.mp hr
    exact derivedRecord_hlo_module_id _ _ n
  · rw [← length_dedupFirst, ← List.length_map out.metrics_db OpMetrics.name, hnames]
    rfl
  · intro hnil
    have hempty : out =
        { metrics_db := [], total_time_ps := hlo_metrics_db.total_time_ps,
          total_op_time_ps := hlo_metrics_db.total_op_time_ps } := by
      rw [hrec, hnil]
      rfl
    refine ⟨by rw [hout, hempty], ?_⟩
    intro h1 h2
    rw [hempty, h1, h2]
    rfl

/-- Witness of C15: records with the target names `Add`, `IDLE`, `Add` give
the records `Add` and `IDLE`, in this order. -/
theorem createTf_names_first_appearance_witness :
    CreateTfMetricsDbFromHloMetricsDb true (fun _ => { name := "Add", type := "add" })
        { metrics_db :=
            [{ OpMetrics.empty with provenance := "p" },
             { OpMetrics.empty with name := "IDLE" },
             { OpMetrics.empty with provenance := "q" }],
          total_time_ps := 0, total_op_time_ps := 0 } =
      some
        { metrics_db :=
            [{ hlo_module_id := 0, name := "Add", category := "add", provenance := "",
               occurrences := 0, time_ps := 0, self_time_ps := 0, flops := 0,
               bytes_accessed := 0 },
             { hlo_module_id := 0, name := "IDLE", category := "IDLE", provenance := "",
               occurrences := 0, time_ps := 0, self_time_ps := 0, flops := 0,
               bytes_accessed := 0 }],
          total_time_ps := 0, total_op_time_ps := 0 } ∧
    ["Add", "IDLE"] =
      dedupFirst (([{ OpMetrics.empty with provenance := "p" },
           { OpMetrics.empty with name := "IDLE" },
           { OpMetrics.empty with provenance := "q" }] : List OpMetrics).map
        (fun h => (tfOpTarget (fun _ => { name := "Add", type := "add" }) h).1)) :=
  ⟨by decide,
    (createTf_names_first_appearance true (fun _ => { name := "Add", type := "add" })
      { metrics_db :=
          [{ OpMetrics.empty with provenance := "p" },
           { OpMetrics.empty with name := "IDLE" },
           { OpMetrics.empty with provenance := "q" }],
        total_time_ps := 0, total_op_time_ps := 0 }
      { metrics_db :=
          [{ hlo_module_id := 0, name := "Add", category := "add", provenance := "",
             occurrences := 0, time_ps := 0, self_time_ps := 0, flops := 0,
             bytes_accessed := 0 },
           { hlo_module_id := 0, name := "IDLE", category := "IDLE", provenance := "",
             occurrences := 0, time_ps := 0, self_time_ps := 0, flops := 0,
             bytes_accessed := 0 }],
        total_time_ps := 0, total_op_time_ps := 0 }
      (by decide)).1⟩

/-- C19: the derivation conserves the additive counters. For every HLO-op
database on which `CreateTfMetricsDbFromHloMetricsDb` returns a database and
every provenance decoder, the sum of time_ps over the returned records equals
the sum of time_ps over the input records modulo `2 ^ 64`, and exactly when
the sum over the input is below `2 ^ 64`; likewise for self_time_ps, flops
and bytes_accessed. -/
theorem createTf_conserves_counters (dchecks : Bool) (ParseTfOpFullname : String → TfOp)
    (hlo_metrics_db out : OpMetricsDb)
    (hout : CreateTfMetricsDbFromHloMetricsDb dchecks ParseTfOpFullname hlo_metrics_db =
      some out) :
    ((out.metrics_db.map OpMetrics.time_ps).sum % 2 ^ 64 =
        (hlo_metrics_db.metrics_db.map OpMetrics.time_ps).sum % 2 ^ 64 ∧
      ((hlo_metrics_db.metrics_db.map OpMetrics.time_ps).sum < 2 ^ 64 →
        (out.metrics_db.map OpMetrics.time_ps).sum =
          (hlo_metrics_db.metrics_db.map OpMetrics.time_ps).sum)) ∧
    ((out.metrics_db.map OpMetrics.self_time_ps).sum % 2 ^ 64 =
        (hlo_metrics_db.metrics_db.map OpMetrics.self_time_ps).sum % 2 ^ 64 ∧
      ((hlo_metrics_db.metrics_db.map OpMetrics.self_time_ps).sum < 2 ^ 64 →
        (out.metrics_db.map OpMetrics.self_time_ps).sum =
          (hlo_metrics_db.metrics_db.map OpMetrics.self_time_ps).sum)) ∧
    ((out.metrics_db.map OpMetrics.flops).sum % 2 ^ 64 =
        (hlo_metrics_db.metrics_db.map OpMetrics.flops).sum % 2 ^ 64 ∧
      ((hlo_metrics_db.metrics_db.map OpMetrics.flops).sum < 2 ^ 64 →
        (out.metrics_db.map OpMetrics.flops).sum =
          (hlo_metrics_db.metrics_db.map OpMetrics.flops).sum)) ∧
    ((out.metrics_db.map OpMetrics.bytes_accessed).sum % 2 ^ 64 =
        (hlo_metrics_db.metrics_db.map OpMetrics.bytes_accessed).sum % 2 ^ 64 ∧
      ((hlo_metrics_db.metrics_db.map OpMetrics.bytes_accessed).sum < 2 ^ 64 →
        (out.metrics_db.map OpMetrics.bytes_accessed).sum =
          (hlo_metrics_db.metrics_db.map OpMetrics.bytes_accessed).sum)) := by
  obtain ⟨-, hrec⟩ := CreateTfMetricsDbFromHloMetricsDb.of_eq_some _ _ _ _ hout
  have hmap : ∀ F : OpMetrics → Nat, out.metrics_db.map F =
      (dedupFirst (targetNames ParseTfOpFullname hlo_metrics_db.metrics_db)).map
        (fun n => F (derivedRecord ParseTfOpFullname hlo_metrics_db.metrics_db n)) := by
    intro F
    rw [hrec, List.map_map]
    rfl
  rw [hmap OpMetrics.time_ps, hmap OpMetrics.self_time_ps, hmap OpMetrics.flops,
    hmap OpMetrics.bytes_accessed]
  exact ⟨derived_sum_conserved OpMetrics.time_ps (fun _ _ _ => rfl) (fun _ => rfl) _ _,
    derived_sum_conserved OpMetrics.self_time_ps (fun _ _ _ => rfl) (fun _ => rfl) _ _,
    derived_sum_conserved OpMetrics.flops (fun _ _ _ => rfl) (fun _ => rfl) _ _,
    derived_sum_conserved OpMetrics.bytes_accessed (fun _ _ _ => rfl) (fun _ => rfl) _ _⟩

/-- Witness of C19: records with times 100, 50 and 7 under the target names
`Add`, `Add` and `IDLE` give records whose times add up to 157. -/
theorem createTf_conserves_counters_witness :
    (([{ hlo_module_id := 0, name := "Add", category := "add", provenance := "",
         occurrences := 0, time_ps := 150, self_time_ps := 0, flops := 0,
         bytes_accessed := 0 },
       { hlo_module_id := 0, name := "IDLE", category := "IDLE", provenance := "",
         occurrences := 0, time_ps := 7, self_time_ps := 0, flops := 0,
         bytes_accessed := 0 }] : List OpMetrics).map OpMetrics.time_ps).sum =
      (([{ OpMetrics.empty with provenance := "p", time_ps := 100 },
         { OpMetrics.empty with provenance := "q", time_ps := 50 },
         { OpMetrics.empty with name := "IDLE", time_ps := 7 }] : List OpMetrics).map
        OpMetrics.time_ps).sum :=
  (createTf_conserves_counters true (fun _ => { name := "Add", type := "add" })
    { metrics_db :=
        [{ OpMetrics.empty with provenance := "p", time_ps := 100 },
         { OpMetrics.empty with provenance := "q", time_ps := 50 },
         { OpMetrics.empty with name := "IDLE", time_ps := 7 }],
      total_time_ps := 200, total_op_time_ps := 150 }
    { metrics_db :=
        [{ hlo_module_id := 0, name := "Add", category := "add", provenance := "",
           occurrences := 0, time_ps := 150, self_time_ps := 0, flops := 0,
           bytes_accessed := 0 },
         { hlo_module_id := 0, name := "IDLE", category := "IDLE", provenance := "",
           occurrences := 0, time_ps := 7, self_time_ps := 0, flops := 0,
           bytes_accessed := 0 }],
      total_time_ps := 200, total_op_time_ps := 150 }
    (by decide)).1.2 (by decide)

/-- C20: the synthetic idle record survives the derivation. For every HLO-op
database whose records all have a non-empty provenance that does not decode
to the name `"IDLE"`, `CreateTfMetricsDbFromHloMetricsDb` returns a database,
none of whose records is named `"IDLE"`, and after one `AddIdleOp` it returns
the same records, unchanged and in the same order, followed by exactly one
record named `"IDLE"`, with module id 0, category `"IDLE"`, occurrences 1,
flops 0, bytes_accessed 0 and time_ps = self_time_ps = `IdleTimePs` of the
input database. -/
theorem createTf_after_addIdleOp (dchecks : Bool) (ParseTfOpFullname : String → TfOp)
    (hlo_metrics_db : OpMetricsDb)
    (hprov : ∀ h ∈ hlo_metrics_db.metrics_db,
      h.provenance ≠ "" ∧ (ParseTfOpFullname h.provenance).name ≠ "IDLE") :
    ∃ out, CreateTfMetricsDbFromHloMetricsDb dchecks ParseTfOpFullname hlo_metrics_db =
        some out ∧
      (∀ r ∈ out.metrics_db, r.name ≠ "IDLE") ∧
      CreateTfMetricsDbFromHloMetricsDb dchecks ParseTfOpFullname
          (AddIdleOp hlo_metrics_db) =
        some
          { metrics_db := out.metrics_db ++
              [{ hlo_module_id := 0, name := "IDLE", category := "IDLE", provenance := "",
                 occurrences := 1, time_ps := IdleTimePs hlo_metrics_db,
                 self_time_ps := IdleTimePs hlo_metrics_db, flops := 0,
                 bytes_accessed := 0 }],
            total_time_ps := hlo_metrics_db.total_time_ps,
            total_op_time_ps := hlo_metrics_db.total_op_time_ps } := by
  have hany : hlo_metrics_db.metrics_db.any failsIdleCheck = false := by
    rw [List.any_eq_false]
    intro h hh
    simp [failsIdleCheck, (hprov h hh).1]
  have hnot : ("IDLE" : String) ∉ targetNames ParseTfOpFullname hlo_metrics_db.metrics_db := by
    intro hmem
    rw [targetNames, List.mem_map] at hmem
    obtain ⟨h, hh, hn⟩ := hmem
    rw [tfOpTarget, if_pos (hprov h hh).1] at hn
    exact (hprov h hh).2 hn
  have htarget : tfOpTarget ParseTfOpFullname
      { hlo_module_id := 0, name := "IDLE", category := "IDLE", provenance := "",
        occurrences := 1, time_ps := IdleTimePs hlo_metrics_db,
        self_time_ps := IdleTimePs hlo_metrics_db, flops := 0, bytes_accessed := 0 } =
      ("IDLE", "IDLE") := by
    simp [tfOpTarget]
  refine ⟨_, CreateTfMetricsDbFromHloMetricsDb.eq_some_of dchecks ParseTfOpFullname
    hlo_metrics_db (by rw [hany]; simp), ?_, ?_⟩
  · intro r hr
    obtain ⟨n, hn, rfl⟩ := List.mem_map.mp hr
    rw [derivedRecord_name]
    rintro rfl
    exact hnot ((mem_dedupFirst _ _).mp hn)
  · have hany' : (dchecks && (AddIdleOp hlo_metrics_db).metrics_db.any failsIdleCheck) =
        false := by
      rw [AddIdleOp_eq]
      simp [hany, failsIdleCheck]
    rw [CreateTfMetricsDbFromHloMetricsDb.eq_some_of _ _ _ hany', AddIdleOp_eq]
    simp only []
    rw [derived_append_new ParseTfOpFullname _ _ (by rw [htarget]; exact hnot), htarget]
    have hlt := IdleTimePs_lt hlo_metrics_db
    norm_num at hlt
    simp [OpMetrics.folded, OpMetrics.fresh, add64, UINT64_MOD, Nat.mod_eq_of_lt hlt]

/-- Witness of C20: a database with one record that decodes to `Add`, with
totals 200 and 150, gives the record `Add` followed by an idle record of
time 50. -/
theorem createTf_after_addIdleOp_witness :
    ∃ out, CreateTfMetricsDbFromHloMetricsDb true (fun _ => { name := "Add", type := "add" })
        { metrics_db := [{ OpMetrics.empty with provenance := "p", time_ps := 150 }],
          total_time_ps := 200, total_op_time_ps := 150 } = some out ∧
      CreateTfMetricsDbFromHloMetricsDb true (fun _ => { name := "Add", type := "add" })
          (AddIdleOp
            { metrics_db := [{ OpMetrics.empty with provenance := "p", time_ps := 150 }],
              total_time_ps := 200, total_op_time_ps := 150 }) =
        some
          { metrics_db := out.metrics_db ++
              [{ hlo_module_id := 0, name := "IDLE", category := "IDLE", provenance := "",
                 occurrences := 1, time_ps := 50, self_time_ps := 50, flops := 0,
                 bytes_accessed := 0 }],
            total_time_ps := 200, total_op_time_ps := 150 } :=
  (createTf_after_addIdleOp true (fun _ => { name := "Add", type := "add" })
    { metrics_db := [{ OpMetrics.empty with provenance := "p", time_ps := 150 }],
      total_time_ps := 200, total_op_time_ps := 150 }
    (by decide)).imp (fun _ h => ⟨h.1, h.2.2⟩)

end tensorflow.profiler
